/-
Verification development for the COVID dashboard repository
(src/main.py, src/covid_data_handler.py, src/covid_news_handling.py).

This file shallowly embeds the data model and the operations of the
dashboard in Lean 4 and settles a list of claims about them.  Python
integers become Nat/Int, fallible Python code (KeyError, IndexError,
ValueError, int() parse failures, SystemExit) becomes Option/Except,
and the mutable module-level state becomes explicit state records
threaded through the functions.  Each definition is translated from
the corresponding Python function and carries a comment naming it.
-/
import Mathlib

set_option maxRecDepth 4000

namespace CovidDashboard

/-! ## Wall-clock values

Python's time.localtime() returns a struct_time whose index 3 is the
hour (0..23) and index 4 is the minute (0..59).  We model the pair of
those two fields; the bounds are guaranteed by the C library. -/

structure Clock where
  hrs : Nat
  mins : Nat
  hrs_lt : hrs < 24
  mins_lt : mins < 60

/-- Python seconds-since-midnight of a clock value:
current_time[3]*60*60 + current_time[4]*60 (main.py, time_buffer). -/
def Clock.seconds (c : Clock) : Nat := c.hrs * 3600 + c.mins * 60

/-- The current_time argument of main.time_buffer.  The recursive call
time_buffer(given_time, "00:00") passes the five-character string
"00:00"; indexing it at 3 and 4 yields the character "0", and the
Python expression ("0" * 3600) + ("0" * 60) is a string of 3660 zero
digits, which int() converts to 0.  We record that value directly. -/
inductive CurArg where
  | tup (h m : Nat) : CurArg
  | strZero : CurArg
deriving DecidableEq

/-- Seconds-since-midnight computed by time_buffer from its
current_time argument (see CurArg for the string case). -/
def CurArg.seconds : CurArg → Nat
  | .tup h m => h * 3600 + m * 60
  | .strZero => 0

/-- The numeric value of a decimal digit character, none otherwise. -/
def digitVal (c : Char) : Option Nat :=
  if c = '0' then some 0 else if c = '1' then some 1 else if c = '2' then some 2
  else if c = '3' then some 3 else if c = '4' then some 4 else if c = '5' then some 5
  else if c = '6' then some 6 else if c = '7' then some 7 else if c = '8' then some 8
  else if c = '9' then some 9 else none

/-- Python int() applied to a string of characters: the decimal value
when every character is a digit and the string is non-empty, and none
(modelling the ValueError raise) otherwise.  The dashboard only ever
converts slices of "HH:MM" strings, which carry no sign or spaces. -/
def pyInt : List Char → Option Nat
  | [] => none
  | l => l.foldl (fun acc c =>
      match acc, digitVal c with
      | some n, some d => some (n * 10 + d)
      | _, _ => none) (some 0)

/-- Termination measure for time_buffer: 1 when the call takes the
negative-buffer branch (and hence recurses), 0 otherwise. -/
def timeBufferMeasure (given : String) (cur : CurArg) : Nat :=
  match pyInt (given.data.take 2), pyInt (given.data.drop 3) with
  | some th, some tm => if th * 3600 + tm * 60 < cur.seconds then 1 else 0
  | _, _ => 0

/-- main.time_buffer.  given_time[:2] and given_time[3:] are converted
with int(); a failing conversion (ValueError) is modelled as none.
dflt is the module-import-time snapshot of time.localtime() that
Python froze as the default value of the current_time parameter: the
recursive call time_buffer("24:00") omits current_time and therefore
uses dflt, whatever the wall clock says at call time. -/
def time_buffer (dflt : Clock) (given : String) (cur : CurArg) : Option Int :=
  match h1 : pyInt (given.data.take 2), h2 : pyInt (given.data.drop 3) with
  | some th, some tm =>
    if hb : th * 3600 + tm * 60 < cur.seconds then
      match time_buffer dflt "24:00" (.tup dflt.hrs dflt.mins),
            time_buffer dflt given .strZero with
      | some nowMidnight, some midnightTime => some (nowMidnight + midnightTime)
      | _, _ => none
    else
      some (((th * 3600 + tm * 60 : Nat) : Int) - ((cur.seconds : Nat) : Int))
  | _, _ => none
termination_by timeBufferMeasure given cur
decreasing_by
  · have e1 : pyInt ("24:00".data.take 2) = some 24 := by decide
    have e2 : pyInt ("24:00".data.drop 3) = some 0 := by decide
    have hd1 := dflt.hrs_lt
    have hd2 := dflt.mins_lt
    simp only [timeBufferMeasure, e1, e2, h1, h2]
    have hlt : ¬ (24 * 3600 + 0 * 60 < (CurArg.tup dflt.hrs dflt.mins).seconds) := by
      show ¬ (24 * 3600 + 0 * 60 < dflt.hrs * 3600 + dflt.mins * 60)
      omega
    rw [if_neg hlt, if_pos hb]
    omega
  · simp only [timeBufferMeasure, h1, h2]
    have hz : ¬ (th * 3600 + tm * 60 < CurArg.strZero.seconds) := by
      show ¬ (th * 3600 + tm * 60 < 0)
      omega
    rw [if_neg hz, if_pos hb]
    omega

/-- The one-argument call sites of time_buffer (schedule_update and
repeat_updates_scheduler omit current_time), which therefore use the
frozen default clock dflt as the current time. -/
def time_buffer_default (dflt : Clock) (given : String) : Option Int :=
  time_buffer dflt given (.tup dflt.hrs dflt.mins)

/-- A sample clock for concrete evaluations. -/
def midnightClock : Clock := ⟨0, 0, by decide, by decide⟩

/-! ## Python dictionaries of strings

News articles live in Python dicts whose keys and values are strings.
We model a dict as an association list with distinct keys (Python
dicts cannot hold a key twice) and Python == as agreement of the two
lookup functions. -/

/-- An association-list model of a Python dict with string keys and
string values. -/
abbrev PyDict := List (String × String)

/-- Python d[k] access, none meaning the KeyError raise. -/
def dictGet (d : PyDict) (k : String) : Option String :=
  (d.find? (fun p => p.1 == k)).map (fun p => p.2)

/-- Python == on dicts: both dicts give the same value to every key
either of them holds (for duplicate-free association lists this is
exactly dict equality). -/
def pyDictEq (a b : PyDict) : Bool :=
  a.all (fun p => dictGet b p.1 == some p.2) &&
  b.all (fun p => dictGet a p.1 == some p.2)

/-! ## covid_data_handler: records and extraction -/

/-- One daily record returned by the statistics provider, with the
three fields process_covid_json_data reads; None becomes none. -/
structure CovidRecord where
  hospitalCases : Option Int
  cumDailyNsoDeathsByDeathDate : Option Int
  newCasesBySpecimenDate : Option Int
deriving DecidableEq

/-- The while loop of process_covid_json_data (covid_data_handler.py
lines 318-330): a single counter walks forward; each iteration fills
hospital cases first if still missing, otherwise fills total deaths.
Running off the end of the list is Python's IndexError, hence none. -/
def backtrackLoop (data : List CovidRecord) (counter : Nat)
    (hosp deaths : Option Int) : Option (Int × Int) :=
  match hosp, deaths with
  | some h, some d => some (h, d)
  | _, _ =>
    match hg : data.get? (counter + 1) with
    | none => none
    | some r =>
      match hosp with
      | none => backtrackLoop data (counter + 1) r.hospitalCases deaths
      | some h => backtrackLoop data (counter + 1) (some h) r.cumDailyNsoDeathsByDeathDate
termination_by data.length - counter
decreasing_by
  all_goals
    have hlt : counter + 1 < data.length := by
      by_contra hge
      rw [List.get?_eq_none.mpr (by omega)] at hg
      exact Option.noConfusion hg
    omega

/-- The backtracking extraction of process_covid_json_data
(covid_data_handler.py lines 307-331): the hospital-cases and
total-deaths values it reports for the national data.  The
comma-formatting and dictionary assembly that follow (lines 337-359)
only reformat these values for display. -/
def process_covid_json_data_extract (data : List CovidRecord) : Option (Int × Int) :=
  match data.get? 0 with
  | none => none
  | some r0 => backtrackLoop data 0 r0.hospitalCases r0.cumDailyNsoDeathsByDeathDate

/-- The search loop of seven_day_case_calculator: starting from index
counter, the first index whose newCasesBySpecimenDate is non-null;
running off the end is IndexError, hence none. -/
def sevenDayFind (data : List CovidRecord) (counter : Nat) : Option Nat :=
  match hg : data.get? counter with
  | none => none
  | some r =>
    if r.newCasesBySpecimenDate.isSome then some counter
    else sevenDayFind data (counter + 1)
termination_by data.length - counter
decreasing_by
  have hlt : counter < data.length := by
    by_contra hge
    rw [List.get?_eq_none.mpr (by omega)] at hg
    exact Option.noConfusion hg
  omega

/-- The summing loop of seven_day_case_calculator: k consecutive
newCasesBySpecimenDate values starting at index day.  A missing record
is IndexError and a null value makes int(None) raise, hence none. -/
def sevenDaySum (data : List CovidRecord) (day : Nat) : Nat → Option Int
  | 0 => some 0
  | k + 1 =>
    match data.get? day with
    | none => none
    | some r =>
      match r.newCasesBySpecimenDate with
      | none => none
      | some c => (sevenDaySum data (day + 1) k).map (fun rest => c + rest)

/-- covid_data_handler.seven_day_case_calculator (lines 366-402). -/
def seven_day_case_calculator (data : List CovidRecord) : Option Int :=
  match sevenDayFind data 0 with
  | none => none
  | some c => sevenDaySum data c 7

/-- The kinds of uncaught Python exceptions the embedded code can
raise. -/
inductive PyCrash where
  | systemExit
  | indexError
deriving DecidableEq

/-- The JSON payload of one Cov19API call: the value of its "data"
key (null becomes none). -/
structure ApiPayload where
  data : Option (List CovidRecord)

/-- covid_data_handler.test_covid_API_request (lines 570-609): raises
SystemExit when either payload is missing or its data entry is null,
for the initial call and every scheduled refresh alike. -/
def test_covid_API_request (eng loc : Option ApiPayload) : Except PyCrash Unit :=
  match eng with
  | none => .error .systemExit
  | some e =>
    match e.data with
    | none => .error .systemExit
    | some _ =>
      match loc with
      | none => .error .systemExit
      | some l =>
        match l.data with
        | none => .error .systemExit
        | some _ => .ok ()

/-- covid_data_handler.covid_API_request, with the two HTTP responses
injected as arguments: runs test_covid_API_request, then the
extraction of process_covid_json_data on the national data and the
seven-day sums on both regions.  The result carries (hospital cases,
total deaths, england seven-day cases, local seven-day cases). -/
def covid_API_request (eng loc : Option ApiPayload) :
    Except PyCrash (Int × Int × Int × Int) :=
  match test_covid_API_request eng loc with
  | .error e => .error e
  | .ok _ =>
    match eng, loc with
    | some ep, some lp =>
      match ep.data, lp.data with
      | some engData, some locData =>
        match process_covid_json_data_extract engData with
        | none => .error .indexError
        | some (h, d) =>
          match seven_day_case_calculator engData with
          | none => .error .indexError
          | some engSeven =>
            match seven_day_case_calculator locData with
            | none => .error .indexError
            | some locSeven => .ok (h, d, engSeven, locSeven)
      | _, _ => .error .indexError
    | _, _ => .error .indexError

/-! ## covid_news_handling: articles -/

/-- The JSON payload of a news API call: the value of its "articles"
key (null becomes none). -/
structure NewsPayload where
  articles : Option (List PyDict)

/-- covid_news_handling.test_news_api_request (lines 418-442). -/
def test_news_api_request (covidRequest : Option NewsPayload) : Except PyCrash Unit :=
  match covidRequest with
  | none => .error .systemExit
  | some p =>
    match p.articles with
    | none => .error .systemExit
    | some _ => .ok ()

/-- covid_news_handling.news_processor (lines 165-205): walks the
fetched articles in order; an article is skipped when the whole
article dict already occurs in covid_news (Python ==) or its title is
in removed_article_titles, and otherwise a trimmed dict of exactly a
"title" and a "content" key is appended to covid_news.  A missing
"title" or displayed-content key is KeyError, hence none. -/
def news_processor (displayedContent : String) (articles : List PyDict)
    (covidNews : List PyDict) (removedTitles : List String) : Option (List PyDict) :=
  match articles with
  | [] => some covidNews
  | a :: rest =>
    if covidNews.any (fun d => pyDictEq a d) then
      news_processor displayedContent rest covidNews removedTitles
    else
      match dictGet a "title" with
      | none => none
      | some t =>
        if removedTitles.contains t then
          news_processor displayedContent rest covidNews removedTitles
        else
          match dictGet a displayedContent with
          | none => none
          | some c =>
            news_processor displayedContent rest
              (covidNews ++ [[("title", t), ("content", c)]]) removedTitles

/-- The first loop of remove_and_limit_news_articles: the articles
whose title is not in the removed set, in order; a missing title key
is KeyError, hence none. -/
def unremovedArticles (removed : List String) : List PyDict → Option (List PyDict)
  | [] => some []
  | a :: rest =>
    match dictGet a "title" with
    | none => none
    | some t =>
      (unremovedArticles removed rest).map
        (fun u => if removed.contains t then u else a :: u)

/-- The update remove_and_limit_news_articles applies to the global
removed_article_titles list: the second parameter is appended when it
is a non-empty string (its live call sites pass either nothing, the
default empty list modelled as none, or a removed title string). -/
def removedTitlesAfter (removedArticle : Option String) (removedTitles : List String) :
    List String :=
  match removedArticle with
  | some s => if 0 < s.length then removedTitles ++ [s] else removedTitles
  | none => removedTitles

/-- What remove_and_limit_news_articles returns: the early exit on an
empty article list returns the bare list itself (line 369), every
other path returns the (articles, displayed) pair. -/
inductive RLReturn where
  | bare (articles : List PyDict) : RLReturn
  | pair (articles displayed : List PyDict) : RLReturn
deriving DecidableEq

/-- covid_news_handling.remove_and_limit_news_articles (lines
325-400).  numDisplayed and noArticlesMsg are the two config values;
removedArticle is the second parameter, whose live call sites pass
either nothing (the default empty list, here none) or the removed
article title string (here some).  removedTitles is the module-global
removed_article_titles list, returned updated. -/
def remove_and_limit_news_articles (numDisplayed : Nat) (noArticlesMsg : String)
    (newsList : List PyDict) (removedArticle : Option String)
    (removedTitles : List String) : Option (RLReturn × List String) :=
  if newsList.length = 0 then some (.bare newsList, removedTitles)
  else
    let rt := removedTitlesAfter removedArticle removedTitles
    (unremovedArticles rt newsList).map (fun unremoved =>
      let ret0 : List PyDict :=
        if unremoved.length = 0 then [[("title", ""), ("content", noArticlesMsg)]] else []
      let ret1 := ret0 ++ unremoved.take (numDisplayed - ret0.length)
      (.pair newsList ret1, rt))

/-! ## The sched-based schedulers

Python sched events are namedtuples (time, priority, action,
argument, kwargs); both modules always schedule with priority 1,
argument () and kwargs {}, and each scheduler has a single callback
function, so an event is determined by its absolute time, its
priority and which module scheduled it.  The scheduler queue property
returns the events sorted by (time, priority); enter pushes an event
whose time is the scheduler clock plus the delay, and
run(blocking=False) pops and executes every event whose time has
arrived, without blocking. -/

inductive SchedAct where
  | covid
  | news
deriving DecidableEq

structure SchedEvent where
  time : Int
  priority : Nat
  act : SchedAct
deriving DecidableEq

/-- The heapq order on events: (time, priority) lexicographically. -/
def eventLt (a b : SchedEvent) : Bool :=
  decide (a.time < b.time) || (decide (a.time = b.time) && decide (a.priority < b.priority))

/-- Insertion into the sorted queue view: the new event goes after
every event not strictly greater. -/
def heapInsert : List SchedEvent → SchedEvent → List SchedEvent
  | [], e => [e]
  | x :: xs, e => if eventLt e x then e :: x :: xs else x :: heapInsert xs e

/-- The queue after run(blocking=False) at scheduler time now: every
due event (time has arrived) is popped and executed.  Executing a due
event invokes covid_API_request or news_API_request, modelled above;
the scheduling claims below are proved in states where no event is
due, so firing only removes events here. -/
def runDue (now : Int) (q : List SchedEvent) : List SchedEvent :=
  q.filter (fun e => decide (now < e.time))

/-- One record of covid_queue_info / news_queue_info. -/
structure QueueInfoEntry where
  event_id : SchedEvent
  event_name : String
  repeat_update : Bool
deriving DecidableEq

/-- The module state of one of the two scheduling modules: the sched
queue and the parallel queue-info list. -/
structure SchedState where
  queue : List SchedEvent
  info : List QueueInfoEntry
deriving DecidableEq

/-- The shared body of schedule_covid_updates (covid_data_handler.py
lines 406-463) and update_news (covid_news_handling.py lines
209-267): enter an event at schedNow + interval, run non-blocking,
read queue[-1] as the newest event (IndexError, hence none, when the
queue emptied), and append the info record unless an equal record is
already present. -/
def schedule_source_update (act : SchedAct) (schedNow interval : Int)
    (updateName : String) (repeatFlag : Bool) (st : SchedState) : Option SchedState :=
  let q1 := heapInsert st.queue ⟨schedNow + interval, 1, act⟩
  let q2 := runDue schedNow q1
  match q2.getLast? with
  | none => none
  | some newest =>
    let entry : QueueInfoEntry := ⟨newest, updateName, repeatFlag⟩
    let info1 := if st.info.contains entry then st.info else st.info ++ [entry]
    some ⟨q2, info1⟩

/-- covid_data_handler.schedule_covid_updates. -/
def schedule_covid_updates (schedNow interval : Int) (updateName : String)
    (repeatFlag : Bool) (st : SchedState) : Option SchedState :=
  schedule_source_update .covid schedNow interval updateName repeatFlag st

/-- covid_news_handling.update_news. -/
def update_news (schedNow interval : Int) (updateName : String)
    (repeatFlag : Bool) (st : SchedState) : Option SchedState :=
  schedule_source_update .news schedNow interval updateName repeatFlag st

/-! ## Python for-loops that remove from the list being iterated

Both remove functions and the expired-update scan follow the same
Python pattern: for x in lst: if cond(x): lst.remove(x).  The list
iterator keeps a position index; remove deletes the first element
equal to x, shifting the tail left, and the iterator then advances,
so the element after a removed one is skipped.  The combinators below
model that index-based traversal exactly, threading extra state
through an effect run at each removal. -/

/-- The removing for-loop with a total condition. -/
def pyLoopRemove {α σ : Type} [DecidableEq α] (cond : α → Bool) (eff : α → σ → σ)
    (l : List α) (s : σ) (i : Nat) : List α × σ :=
  if h : i < l.length then
    let x := l.get ⟨i, h⟩
    if cond x then pyLoopRemove cond eff (l.erase x) (eff x s) (i + 1)
    else pyLoopRemove cond eff l s (i + 1)
  else (l, s)
termination_by l.length - i
decreasing_by
  · have hle := (List.erase_sublist (l.get ⟨i, ‹i < l.length›⟩) l).length_le
    omega
  · omega

/-- The removing for-loop with a condition that can itself raise
(none), as the expired-update scan's int() conversions can. -/
def pyLoopRemoveFallible {α σ : Type} [DecidableEq α] (cond : α → Option Bool)
    (eff : α → σ → σ) (l : List α) (s : σ) (i : Nat) : Option (List α × σ) :=
  if h : i < l.length then
    let x := l.get ⟨i, h⟩
    match cond x with
    | none => none
    | some true => pyLoopRemoveFallible cond eff (l.erase x) (eff x s) (i + 1)
    | some false => pyLoopRemoveFallible cond eff l s (i + 1)
  else some (l, s)
termination_by l.length - i
decreasing_by
  · have hle := (List.erase_sublist (l.get ⟨i, ‹i < l.length›⟩) l).length_le
    omega
  · omega

/-- covid_data_handler.remove_covid_data_update (lines 466-518) and
its twin covid_news_handling.remove_news_update (lines 270-322): when
expired, a first removing loop deletes the info records with the
given name; a second removing loop then deletes remaining records
with the name and cancels their events, the cancel of an event no
longer in the queue being caught (ValueError), leaving the queue
unchanged. -/
def remove_source_update (name : String) (expired : Bool) (st : SchedState) : SchedState :=
  let info1 :=
    if expired then
      (pyLoopRemove (fun u => u.event_name == name) (fun _ s => s) st.info () 0).1
    else st.info
  let r2 := pyLoopRemove (fun u => u.event_name == name)
    (fun u q => q.erase u.event_id) info1 st.queue 0
  ⟨r2.2, r2.1⟩

/-- covid_data_handler.remove_covid_data_update. -/
def remove_covid_data_update (name : String) (expired : Bool) (st : SchedState) : SchedState :=
  remove_source_update name expired st

/-- covid_news_handling.remove_news_update. -/
def remove_news_update (name : String) (expired : Bool) (st : SchedState) : SchedState :=
  remove_source_update name expired st

/-! ## main: the registry and its operations -/

/-- One record of the global scheduled_updates list built by
schedule_update: the keys title, content, covid, news, repeat, time.
The repeat key is named repeatFlag because repeat is reserved in
Lean. -/
structure SchedDict where
  title : String
  content : String
  covid : Bool
  news : Bool
  repeatFlag : Bool
  time : String
deriving DecidableEq

/-- Python str() of a boolean. -/
def pyBoolStr (b : Bool) : String := if b then "True" else "False"

/-- The dictionary schedule_update builds (main.py lines 334-378). -/
def mk_schedule_dictionary (updateName : String) (covid news repeatFlag : Bool)
    (givenTime : String) : SchedDict :=
  ⟨updateName,
    "COVID Update: " ++ pyBoolStr covid ++ "\nNews Update: " ++ pyBoolStr news ++
      "\nRepeat Update: " ++ pyBoolStr repeatFlag ++ "\nUpdate at: " ++ givenTime,
    covid, news, repeatFlag, givenTime⟩

/-- The mutable state of the dashboard that the scheduling claims
concern: the registry in main and the two scheduler module states. -/
structure DashState where
  scheduled_updates : List SchedDict
  covidSched : SchedState
  newsSched : SchedState
deriving DecidableEq

/-- main.schedule_update (lines 294-406).  The repeat, covid-update
and news-update arguments arrive from request.args, so they are
strings-or-None, normalised with is-not-None checks; givenTime equal
to "" selects the config base interval and the time "00:00".  dflt is
the frozen import-time clock time_buffer defaults to. -/
def schedule_update (dflt : Clock) (baseUpdateInterval : Int) (schedNow : Int)
    (updateName : String) (givenTime : String)
    (repeatArg covidArg newsArg : Option String) (st : DashState) : Option DashState :=
  let covid := covidArg.isSome
  let news := newsArg.isSome
  let rep := repeatArg.isSome
  match (if givenTime = "" then some (baseUpdateInterval, "00:00")
         else (time_buffer_default dflt givenTime).map (fun b => (b, givenTime))) with
  | none => none
  | some (buffer, gt) =>
    let d := mk_schedule_dictionary updateName covid news rep gt
    let su1 := if st.scheduled_updates.contains d then st.scheduled_updates
               else st.scheduled_updates ++ [d]
    let st1 : DashState := ⟨su1, st.covidSched, st.newsSched⟩
    if news && covid then
      (schedule_covid_updates schedNow buffer updateName rep st1.covidSched).bind
        (fun c => (update_news schedNow buffer updateName rep st1.newsSched).map
          (fun n => ⟨st1.scheduled_updates, c, n⟩))
    else if covid then
      (schedule_covid_updates schedNow buffer updateName rep st1.covidSched).map
        (fun c => ⟨st1.scheduled_updates, c, st1.newsSched⟩)
    else if news then
      (update_news schedNow buffer updateName rep st1.newsSched).map
        (fun n => ⟨st1.scheduled_updates, st1.covidSched, n⟩)
    else some st1

/-- main.repeat_updates_scheduler (lines 409-444): re-schedules one
registry record, computing the delay with the one-argument
time_buffer call (frozen default clock).  The first branch of the
source tests update['covid'] twice (line 433), so a covid update is
re-armed on both schedulers regardless of its news flag; the covid
elif is kept although the first branch shadows it. -/
def repeat_updates_scheduler (dflt : Clock) (schedNow : Int) (u : SchedDict)
    (st : DashState) : Option DashState :=
  match time_buffer_default dflt u.time with
  | none => none
  | some delay =>
    if u.covid && u.covid then
      (schedule_covid_updates schedNow delay u.title true st.covidSched).bind
        (fun c => (update_news schedNow delay u.title true st.newsSched).map
          (fun n => ⟨st.scheduled_updates, c, n⟩))
    else if u.covid then
      (schedule_covid_updates schedNow delay u.title true st.covidSched).map
        (fun c => ⟨st.scheduled_updates, c, st.newsSched⟩)
    else if u.news then
      (update_news schedNow delay u.title true st.newsSched).map
        (fun n => ⟨st.scheduled_updates, st.covidSched, n⟩)
    else some st

/-- The expiry test of remove_scheduled_update (main.py lines
482-485): int(update_time[:2]) == current hour and
int(update_time[3:]) <= current minute.  Python's and short-circuits,
so the minute slice is only converted when the hour matches; a
failing int() is ValueError, hence none. -/
def expiredCond (wall : Nat × Nat) (u : SchedDict) : Option Bool :=
  match pyInt (u.time.data.take 2) with
  | none => none
  | some h =>
    if h == wall.1 then
      match pyInt (u.time.data.drop 3) with
      | none => none
      | some m => some (decide (m ≤ wall.2))
    else some false

/-- The bookkeeping run for one expired registry record (main.py
lines 493-501). -/
def expiredEffect (u : SchedDict) (p : SchedState × SchedState) : SchedState × SchedState :=
  if u.covid && u.news then
    (remove_covid_data_update u.title true p.1, remove_news_update u.title true p.2)
  else if u.covid then
    (remove_covid_data_update u.title true p.1, p.2)
  else if u.news then
    (p.1, remove_news_update u.title true p.2)
  else p

/-- main.remove_scheduled_update (lines 447-505): the manual-removal
loop when the request carries an update_item argument, then the
expired-update scan over the registry.  Both loops remove from the
list they iterate, with the skipping semantics of pyLoopRemove. -/
def remove_scheduled_update (updateItem : Option String) (wall : Nat × Nat)
    (st : DashState) : Option DashState :=
  let st1 : DashState :=
    match updateItem with
    | none => st
    | some nm =>
      let r := pyLoopRemove (fun u => u.title == nm)
        (fun u p =>
          let n := remove_news_update u.title false p.2
          let c := remove_covid_data_update u.title false p.1
          (c, n))
        st.scheduled_updates (st.covidSched, st.newsSched) 0
      ⟨r.1, r.2.1, r.2.2⟩
  (pyLoopRemoveFallible (expiredCond wall) expiredEffect
      st1.scheduled_updates (st1.covidSched, st1.newsSched) 0).map
    (fun r => ⟨r.1, r.2.1, r.2.2⟩)

/-- The scheduling maintenance of one render_webpage poll (main.py
lines 161-192): the remove_scheduled_update call, then, when the wall
clock reads exactly 23:59, the repeat loop that re-arms every
repeat=true record still in the registry via
repeat_updates_scheduler. -/
def poll_maintenance (dflt : Clock) (schedNow : Int) (wall : Nat × Nat)
    (updateItem : Option String) (st : DashState) : Option DashState :=
  (remove_scheduled_update updateItem wall st).bind (fun st1 =>
    if wall.1 == 23 && wall.2 == 59 then
      st1.scheduled_updates.foldlM
        (fun s u => if u.repeatFlag then repeat_updates_scheduler dflt schedNow u s
                    else some s) st1
    else some st1)

/-! ## Helper views used to state the claims -/

/-- The number of registry records carrying a tag. -/
def registryCount (l : List SchedDict) (tag : String) : Nat :=
  (l.filter (fun u => u.title == tag)).length

/-- The number of queue-info records carrying a tag. -/
def infoCount (l : List QueueInfoEntry) (tag : String) : Nat :=
  (l.filter (fun u => u.event_name == tag)).length

/-- The number of stored news entries carrying a title. -/
def titleCount (l : List PyDict) (t : String) : Nat :=
  (l.filter (fun d => dictGet d "title" == some t)).length

/-- The first non-null hospitalCases value of a record list, together
with the records strictly after the record carrying it.  Used to
describe what the backtracking loop actually computes. -/
def firstHosp : List CovidRecord → Option (Int × List CovidRecord)
  | [] => none
  | r :: rest =>
    match r.hospitalCases with
    | some h => some (h, rest)
    | none => firstHosp rest

/-- The index of the first record with a non-null
newCasesBySpecimenDate value. -/
def firstNewCasesIdx : List CovidRecord → Option Nat
  | [] => none
  | r :: rest =>
    if r.newCasesBySpecimenDate.isSome then some 0
    else (firstNewCasesIdx rest).map (fun n => n + 1)

/-- The window of k consecutive newCasesBySpecimenDate values read
from the front of a record list, none when the list is too short or a
value in the window is null.  This is the claim's description of the
seven-day sum: the value at the first non-null index plus the next
six. -/
def newCasesWindow : List CovidRecord → Nat → Option (List Int)
  | _, 0 => some []
  | [], _ + 1 => none
  | r :: rest, k + 1 =>
    match r.newCasesBySpecimenDate with
    | none => none
    | some c => (newCasesWindow rest k).map (fun cs => c :: cs)

/-- Concrete provider data for the deaths-backtracking behaviour: the
most recent record has null hospital cases and null deaths, the next
two records carry values. -/
def covidDataExample : List CovidRecord :=
  [⟨none, none, some 1⟩, ⟨some 3, some 7, some 1⟩, ⟨some 4, some 9, some 1⟩]

/-- Concrete provider data with ten records whose most recent two
have null hospitalCases, as in the claim's example scenario. -/
def covidDataTen : List CovidRecord :=
  [⟨none, some 100, some 1⟩, ⟨none, some 98, some 2⟩, ⟨some 5, some 97, some 3⟩,
   ⟨some 6, some 96, some 4⟩, ⟨some 7, some 95, some 5⟩, ⟨some 8, some 94, some 6⟩,
   ⟨some 9, some 93, some 7⟩, ⟨some 10, some 92, some 8⟩, ⟨some 11, some 91, some 9⟩,
   ⟨some 12, some 90, some 10⟩]

/-- Sample clock whose frozen time is 10:00, for concrete scheduler
runs. -/
def tenOClock : Clock := ⟨10, 0, by decide, by decide⟩

/-- The delay schedule_update computes for a given target time when it
runs while the wall clock shows wallAtCall.  The schedule_update call
site passes no current_time to time_buffer (main.py line 362), and
Python evaluated the time.localtime() default once at import, so the
wall clock at the moment of the call does not enter the
computation. -/
def schedule_update_delay (dflt : Clock) (wallAtCall : Clock) (givenTime : String) :
    Option Int :=
  time_buffer_default dflt givenTime

/-! # Lemmas: unfolding time_buffer -/

/-- A failing int() conversion of either slice makes time_buffer
raise. -/
theorem time_buffer_parse_none (dflt : Clock) (given : String) (cur : CurArg)
    (h : pyInt (given.data.take 2) = none ∨ pyInt (given.data.drop 3) = none) :
    time_buffer dflt given cur = none := by
  rw [time_buffer.eq_def]
  rcases h with h | h <;> (split <;> simp_all)

/-- The branch for a target not yet in the past: the plain difference
of seconds. -/
theorem time_buffer_not_past (dflt : Clock) (given : String) (cur : CurArg)
    (th tm : Nat) (h1 : pyInt (given.data.take 2) = some th)
    (h2 : pyInt (given.data.drop 3) = some tm)
    (hge : ¬ (th * 3600 + tm * 60 < cur.seconds)) :
    time_buffer dflt given cur =
      some (((th * 3600 + tm * 60 : Nat) : Int) - ((cur.seconds : Nat) : Int)) := by
  rw [time_buffer.eq_def]
  split
  · rename_i th2 tm2 heq1 heq2
    rw [h1, Option.some.injEq] at heq1
    rw [h2, Option.some.injEq] at heq2
    subst heq1
    subst heq2
    rw [dif_neg hge]
  · rename_i hcontra
    exact (hcontra th tm h1 h2).elim

/-- The recursive helper call time_buffer("24:00"), which uses the
frozen default clock: the seconds from that frozen time to
midnight. -/
theorem time_buffer_2400 (dflt : Clock) :
    time_buffer dflt "24:00" (.tup dflt.hrs dflt.mins) =
      some (86400 - (dflt.seconds : Int)) := by
  have hge : ¬ (24 * 3600 + 0 * 60 < (CurArg.tup dflt.hrs dflt.mins).seconds) := by
    show ¬ (24 * 3600 + 0 * 60 < dflt.hrs * 3600 + dflt.mins * 60)
    have := dflt.hrs_lt
    have := dflt.mins_lt
    omega
  rw [time_buffer_not_past dflt "24:00" _ 24 0 (by decide) (by decide) hge]
  show some _ = some _
  rw [Option.some.injEq]
  show ((24 * 3600 + 0 * 60 : Nat) : Int) - ((dflt.hrs * 3600 + dflt.mins * 60 : Nat) : Int)
      = 86400 - ((dflt.hrs * 3600 + dflt.mins * 60 : Nat) : Int)
  omega

/-- The recursive helper call time_buffer(given_time, "00:00"): the
target seconds themselves. -/
theorem time_buffer_strZero (dflt : Clock) (given : String) (th tm : Nat)
    (h1 : pyInt (given.data.take 2) = some th)
    (h2 : pyInt (given.data.drop 3) = some tm) :
    time_buffer dflt given .strZero = some ((th * 3600 + tm * 60 : Nat) : Int) := by
  have hge : ¬ (th * 3600 + tm * 60 < CurArg.strZero.seconds) := by
    show ¬ (th * 3600 + tm * 60 < 0)
    omega
  rw [time_buffer_not_past dflt given _ th tm h1 h2 hge]
  show some _ = some _
  rw [Option.some.injEq]
  show ((th * 3600 + tm * 60 : Nat) : Int) - ((0 : Nat) : Int) = _
  omega

/-- The branch for a target already in the past: seconds from the
frozen default clock to midnight plus the target seconds. -/
theorem time_buffer_past (dflt : Clock) (given : String) (cur : CurArg)
    (th tm : Nat) (h1 : pyInt (given.data.take 2) = some th)
    (h2 : pyInt (given.data.drop 3) = some tm)
    (hlt : th * 3600 + tm * 60 < cur.seconds) :
    time_buffer dflt given cur =
      some ((86400 - (dflt.seconds : Int)) + ((th * 3600 + tm * 60 : Nat) : Int)) := by
  rw [time_buffer.eq_def]
  split
  · rename_i th2 tm2 heq1 heq2
    rw [h1, Option.some.injEq] at heq1
    rw [h2, Option.some.injEq] at heq2
    subst heq1
    subst heq2
    rw [dif_pos hlt, time_buffer_2400 dflt, time_buffer_strZero dflt given th tm h1 h2]
  · rename_i hcontra
    exact (hcontra th tm h1 h2).elim

/-- Every delay time_buffer returns is non-negative, whatever clock is
passed as current time. -/
theorem time_buffer_nonneg (dflt : Clock) (given : String) (cur : CurArg) (r : Int)
    (h : time_buffer dflt given cur = some r) : 0 ≤ r := by
  rcases hp1 : pyInt (given.data.take 2) with _ | th
  · rw [time_buffer_parse_none dflt given cur (Or.inl hp1)] at h
    exact absurd h (by simp)
  rcases hp2 : pyInt (given.data.drop 3) with _ | tm
  · rw [time_buffer_parse_none dflt given cur (Or.inr hp2)] at h
    exact absurd h (by simp)
  by_cases hlt : th * 3600 + tm * 60 < cur.seconds
  · rw [time_buffer_past dflt given cur th tm hp1 hp2 hlt] at h
    rw [Option.some.injEq] at h
    have hs : dflt.seconds ≤ 86340 := by
      show dflt.hrs * 3600 + dflt.mins * 60 ≤ 86340
      have := dflt.hrs_lt
      have := dflt.mins_lt
      omega
    omega
  · rw [time_buffer_not_past dflt given cur th tm hp1 hp2 hlt] at h
    rw [Option.some.injEq] at h
    omega

/-- C2: corrected.  The claimed strict one-day bound fails when the
current time passed in differs from the frozen default clock (see the
counterexample); what holds is: every returned delay is non-negative;
for the one-argument form (current time equal to the frozen clock)
with a well-formed "HH:MM" target the delay is non-negative and
strictly below 86400; and time_buffer("24:00") with both clocks at
midnight returns exactly 86400. -/
theorem C2_time_buffer_delay_bounds :
    (∀ (dflt : Clock) (given : String) (cur : CurArg) (r : Int),
       time_buffer dflt given cur = some r → 0 ≤ r)
    ∧ (∀ (dflt : Clock) (given : String) (th tm : Nat) (r : Int),
       pyInt (given.data.take 2) = some th → pyInt (given.data.drop 3) = some tm →
       th < 24 → tm < 60 →
       time_buffer_default dflt given = some r → 0 ≤ r ∧ r < 86400)
    ∧ time_buffer midnightClock "24:00" (.tup 0 0) = some 86400 := by
  refine ⟨time_buffer_nonneg, ?_, ?_⟩
  · intro dflt given th tm r h1 h2 hth htm h
    rw [time_buffer_default] at h
    have hs : dflt.seconds = dflt.hrs * 3600 + dflt.mins * 60 := rfl
    have hcur : (CurArg.tup dflt.hrs dflt.mins).seconds = dflt.hrs * 3600 + dflt.mins * 60 := rfl
    have hdh := dflt.hrs_lt
    have hdm := dflt.mins_lt
    by_cases hlt : th * 3600 + tm * 60 < (CurArg.tup dflt.hrs dflt.mins).seconds
    · rw [time_buffer_past dflt given _ th tm h1 h2 hlt] at h
      rw [Option.some.injEq, hs] at h
      rw [hcur] at hlt
      omega
    · rw [time_buffer_not_past dflt given _ th tm h1 h2 hlt] at h
      rw [Option.some.injEq, hcur] at h
      rw [hcur] at hlt
      omega
  · have h := time_buffer_2400 midnightClock
    have hm : midnightClock.seconds = 0 := rfl
    rw [hm] at h
    exact h

/-- C2 witness: the one-argument form at frozen clock 10:00 with
target "20:30" returns 37800 seconds, inside the claimed bounds. -/
theorem C2_time_buffer_delay_bounds_witness : (0 : Int) ≤ 37800 ∧ (37800 : Int) < 86400 := by
  have hval : time_buffer_default tenOClock "20:30" = some 37800 := by
    rw [time_buffer_default,
        time_buffer_not_past tenOClock "20:30" _ 20 30 (by decide) (by decide) (by decide)]
    decide
  exact C2_time_buffer_delay_bounds.2.1 tenOClock "20:30" 20 30 37800
    (by decide) (by decide) (by decide) (by decide) hval

/-- C2 counterexample: with the frozen default clock at midnight, a
call passing the current time 23:59 explicitly and the target "00:30"
returns 88200 seconds, breaking the claimed strict 86400 bound (the
wrap branch recomputes the midnight distance against the frozen
clock, not the passed-in current time). -/
theorem C2_counterexample :
    time_buffer midnightClock "00:30" (.tup 23 59) = some 88200 ∧
    ¬ ((88200 : Int) < 86400) := by
  constructor
  · rw [time_buffer_past midnightClock "00:30" _ 0 30 (by decide) (by decide) (by decide)]
    decide
  · decide

/-- C9: confirmed.  The delay computed for the one-argument call
sites of time_buffer does not depend on the wall clock at the moment
of the call: Python evaluated the time.localtime() default once at
import, so two calls at arbitrary wall-clock times w1 and w2 with the
same target string return the identical delay, namely the delay
relative to the frozen process-start clock. -/
theorem C9_frozen_default_clock :
    ∀ (dflt w1 w2 : Clock) (given : String),
      schedule_update_delay dflt w1 given = schedule_update_delay dflt w2 given ∧
      schedule_update_delay dflt w1 given = time_buffer_default dflt given := by
  intro dflt w1 w2 given
  exact ⟨rfl, rfl⟩

/-! # Lemmas and claims: news handling -/

/-- When every article's title is in the removed set, the unremoved
list is empty. -/
theorem unremovedArticles_all_removed (removed : List String) (l : List PyDict)
    (h : ∀ a ∈ l, ∃ t, dictGet a "title" = some t ∧ t ∈ removed) :
    unremovedArticles removed l = some [] := by
  induction l with
  | nil => rfl
  | cons a rest ih =>
    obtain ⟨t, ht, hmem⟩ := h a (by simp)
    have hrest := ih (fun b hb => h b (by simp [hb]))
    have hc : removed.contains t = true := List.elem_iff.mpr hmem
    simp only [unremovedArticles, ht, hrest, hc]
    simp

/-- C5: corrected.  On the empty article list
remove_and_limit_news_articles returns early with the bare empty list
and does not touch the removed-titles set; no placeholder is built
(see the counterexample).  The placeholder is produced exactly when
the input list is non-empty and every one of its articles has a
removed title. -/
theorem C5_empty_list_and_placeholder :
    (∀ (num : Nat) (msg : String) (ra : Option String) (rt : List String),
       remove_and_limit_news_articles num msg [] ra rt = some (.bare [], rt))
    ∧ (∀ (num : Nat) (msg : String) (l : List PyDict) (ra : Option String) (rt : List String),
       l ≠ [] →
       (∀ a ∈ l, ∃ t, dictGet a "title" = some t ∧ t ∈ removedTitlesAfter ra rt) →
       remove_and_limit_news_articles num msg l ra rt =
         some (.pair l [[("title", ""), ("content", msg)]], removedTitlesAfter ra rt)) := by
  constructor
  · intro num msg ra rt
    rfl
  · intro num msg l ra rt hne hall
    simp only [remove_and_limit_news_articles]
    have hlen : ¬ (l.length = 0) := by
      cases l
      · exact absurd rfl hne
      · simp
    rw [if_neg hlen, unremovedArticles_all_removed _ _ hall]
    simp

/-- C5 witness: one article whose title has just been removed yields
the placeholder pair. -/
theorem C5_empty_list_and_placeholder_witness :
    remove_and_limit_news_articles 4 "gone" [[("title", "x")]] (some "x") [] =
      some (.pair [[("title", "x")]] [[("title", ""), ("content", "gone")]], ["x"]) := by
  have happ := C5_empty_list_and_placeholder.2 4 "gone" [[("title", "x")]] (some "x") []
    (by decide)
    (by
      intro a ha
      simp only [List.mem_singleton] at ha
      subst ha
      exact ⟨"x", by decide, by decide⟩)
  simpa using happ

/-- C5 counterexample: for the empty article list the function
returns the bare empty list, not the claimed single synthetic
placeholder entry. -/
theorem C5_counterexample :
    remove_and_limit_news_articles 4 "none" [] none [] = some (.bare [], []) ∧
    RLReturn.bare ([] : List PyDict) ≠
      RLReturn.pair [] [[("title", ""), ("content", "none")]] := by
  exact ⟨by decide, by decide⟩

/-- C10: corrected.  What news_processor guarantees about new
entries: they are appended after the existing ones, each has exactly
a title and a content key, and its title was not in the removed set.
Nothing prevents a re-fetched article from being appended again (the
membership test compares the full fetched dict against the stored
trimmed dicts), so a title can occur twice; see the
counterexample. -/
theorem C10_news_processor_appends :
    ∀ (dc : String) (arts cn : List PyDict) (rem : List String) (cn' : List PyDict),
      news_processor dc arts cn rem = some cn' →
      ∃ newEntries, cn' = cn ++ newEntries ∧
        ∀ e ∈ newEntries, ∃ t c, e = [("title", t), ("content", c)] ∧ t ∉ rem := by
  intro dc arts
  induction arts with
  | nil =>
    intro cn rem cn' h
    rw [news_processor, Option.some.injEq] at h
    exact ⟨[], by simp [h.symm], by simp⟩
  | cons a rest ih =>
    intro cn rem cn' h
    rw [news_processor] at h
    by_cases hin : cn.any (fun d => pyDictEq a d)
    · rw [if_pos hin] at h
      exact ih cn rem cn' h
    · rw [if_neg hin] at h
      rcases ht : dictGet a "title" with _ | t
      · simp only [ht] at h
        exact Option.noConfusion h
      · simp only [ht] at h
        by_cases hrem : rem.contains t = true
        · rw [if_pos hrem] at h
          exact ih cn rem cn' h
        · rw [if_neg hrem] at h
          rcases hc : dictGet a dc with _ | c
          · simp only [hc] at h
            exact Option.noConfusion h
          · simp only [hc] at h
            obtain ⟨newE, hcat, hprop⟩ := ih (cn ++ [[("title", t), ("content", c)]]) rem cn' h
            refine ⟨[("title", t), ("content", c)] :: newE, by simp [hcat], ?_⟩
            intro e he
            rcases List.mem_cons.mp he with he2 | he2
            · subst he2
              refine ⟨t, c, rfl, ?_⟩
              intro hmem
              exact hrem (List.elem_iff.mpr hmem)
            · exact hprop e he2

/-- C10 witness: a fresh article with an unremoved title is appended
as a trimmed title/content dict. -/
theorem C10_news_processor_appends_witness :
    news_processor "content" [[("title", "a"), ("content", "b")]] [] [] =
      some [[("title", "a"), ("content", "b")]] ∧
    ¬ (("a" : String) ∈ ([] : List String)) := by
  refine ⟨by decide, ?_⟩
  obtain ⟨newE, hcat, hprop⟩ := C10_news_processor_appends "content"
    [[("title", "a"), ("content", "b")]] [] [] [[("title", "a"), ("content", "b")]] (by decide)
  simp only [List.nil_append] at hcat
  have hmem : [("title", "a"), ("content", "b")] ∈ newE := by
    rw [← hcat]
    simp
  obtain ⟨t, c, hshape, hnot⟩ := hprop _ hmem
  have hta : t = "a" := by
    have := congrArg (fun l => dictGet l "title") hshape
    simp [dictGet] at this
    exact this.symm
  subst hta
  exact hnot

/-- C10 counterexample: two fetches of the same article (whose dict
carries a description key while the stored entries are trimmed to
title and content) append it twice, so the stored news list holds the
same title twice. -/
theorem C10_counterexample :
    news_processor "description" [[("title", "t"), ("description", "d")]] [] [] =
      some [[("title", "t"), ("content", "d")]] ∧
    news_processor "description" [[("title", "t"), ("description", "d")]]
      [[("title", "t"), ("content", "d")]] [] =
      some [[("title", "t"), ("content", "d")], [("title", "t"), ("content", "d")]] ∧
    titleCount [[("title", "t"), ("content", "d")], [("title", "t"), ("content", "d")]] "t" = 2 := by
  exact ⟨by decide, by decide, by decide⟩

/-! # Lemmas and claims: the covid data extraction (C6) -/

theorem drop_cons_of_get? {α : Type} (l : List α) (n : Nat) (x : α)
    (h : l.get? n = some x) : l.drop n = x :: l.drop (n + 1) := by
  obtain ⟨hlt, hg⟩ := List.get?_eq_some.mp h
  simp only [List.get_eq_getElem] at hg
  rw [List.drop_eq_getElem_cons hlt, hg]

theorem drop_nil_of_get? {α : Type} (l : List α) (n : Nat)
    (h : l.get? n = none) : l.drop n = [] := by
  rw [List.drop_eq_nil_iff]
  exact List.get?_eq_none.mp h

theorem findSome?_cons_some {α β : Type} (f : α → Option β) (x : α) (xs : List α)
    (b : β) (h : f x = some b) : List.findSome? f (x :: xs) = some b := by
  simp [List.findSome?_cons, h]

theorem findSome?_cons_none {α β : Type} (f : α → Option β) (x : α) (xs : List α)
    (h : f x = none) : List.findSome? f (x :: xs) = List.findSome? f xs := by
  simp [List.findSome?_cons, h]

/-- Step lemma: loop exit once both values are filled. -/
theorem backtrackLoop_done (data : List CovidRecord) (c : Nat) (h d : Int) :
    backtrackLoop data c (some h) (some d) = some (h, d) := by
  rw [backtrackLoop.eq_def]

/-- Step lemma: hospital cases still missing, next record exists. -/
theorem backtrackLoop_hospNone (data : List CovidRecord) (c : Nat)
    (deaths : Option Int) (r : CovidRecord) (hg : data.get? (c + 1) = some r) :
    backtrackLoop data c none deaths =
      backtrackLoop data (c + 1) r.hospitalCases deaths := by
  rw [backtrackLoop.eq_def]
  split
  · simp_all
  · split
    · rename_i heq
      rw [hg] at heq
      exact Option.noConfusion heq
    · rename_i r2 heq
      rw [hg, Option.some.injEq] at heq
      subst heq
      rfl

/-- Step lemma: hospital cases filled, deaths still missing, next
record exists. -/
theorem backtrackLoop_deathsNone (data : List CovidRecord) (c : Nat) (h : Int)
    (r : CovidRecord) (hg : data.get? (c + 1) = some r) :
    backtrackLoop data c (some h) none =
      backtrackLoop data (c + 1) (some h) r.cumDailyNsoDeathsByDeathDate := by
  rw [backtrackLoop.eq_def]
  split
  · simp_all
  · split
    · rename_i heq
      rw [hg] at heq
      exact Option.noConfusion heq
    · rename_i r2 heq
      rw [hg, Option.some.injEq] at heq
      subst heq
      rfl

/-- Step lemma: a value still missing and the list exhausted is
IndexError. -/
theorem backtrackLoop_oob (data : List CovidRecord) (c : Nat)
    (hosp deaths : Option Int) (hnb : hosp = none ∨ deaths = none)
    (hg : data.get? (c + 1) = none) :
    backtrackLoop data c hosp deaths = none := by
  rcases hosp with _ | h <;> rcases deaths with _ | d
  · rw [backtrackLoop.eq_def]
    split
    · simp_all
    · split
      · rfl
      · rename_i r2 heq
        rw [hg] at heq
        exact Option.noConfusion heq
  · rw [backtrackLoop.eq_def]
    split
    · simp_all
    · split
      · rfl
      · rename_i r2 heq
        rw [hg] at heq
        exact Option.noConfusion heq
  · rw [backtrackLoop.eq_def]
    split
    · simp_all
    · split
      · rfl
      · rename_i r2 heq
        rw [hg] at heq
        exact Option.noConfusion heq
  · rcases hnb with hnb | hnb <;> exact Option.noConfusion hnb

/-- With hospital cases already found at value h, the loop returns h
paired with the first non-null deaths value strictly after the
current counter. -/
theorem backtrackLoop_hosp_found (data : List CovidRecord) :
    ∀ (n c : Nat) (h : Int), data.length - c ≤ n →
      backtrackLoop data c (some h) none =
        (List.findSome? (fun r => r.cumDailyNsoDeathsByDeathDate)
          (data.drop (c + 1))).map (fun d => (h, d)) := by
  intro n
  induction n with
  | zero =>
    intro c h hle
    rcases hg : data.get? (c + 1) with _ | r
    · rw [backtrackLoop_oob data c _ _ (Or.inr rfl) hg, drop_nil_of_get? data (c + 1) hg]
      rfl
    · obtain ⟨hlt, _⟩ := List.get?_eq_some.mp hg
      omega
  | succ n ih =>
    intro c h hle
    rcases hg : data.get? (c + 1) with _ | r
    · rw [backtrackLoop_oob data c _ _ (Or.inr rfl) hg, drop_nil_of_get? data (c + 1) hg]
      rfl
    · have hdrop := drop_cons_of_get? data (c + 1) r hg
      obtain ⟨hlt, _⟩ := List.get?_eq_some.mp hg
      rw [backtrackLoop_deathsNone data c h r hg, hdrop]
      rcases hr : r.cumDailyNsoDeathsByDeathDate with _ | d
      · rw [findSome?_cons_none _ _ _ hr]
        exact ih (c + 1) h (by omega)
      · rw [findSome?_cons_some _ _ _ d hr, backtrackLoop_done]
        rfl

/-- With deaths already found at value v, the loop returns the first
non-null hospital value strictly after the current counter, paired
with v. -/
theorem backtrackLoop_deaths_found (data : List CovidRecord) :
    ∀ (n c : Nat) (v : Int), data.length - c ≤ n →
      backtrackLoop data c none (some v) =
        (List.findSome? (fun r => r.hospitalCases)
          (data.drop (c + 1))).map (fun h => (h, v)) := by
  intro n
  induction n with
  | zero =>
    intro c v hle
    rcases hg : data.get? (c + 1) with _ | r
    · rw [backtrackLoop_oob data c _ _ (Or.inl rfl) hg, drop_nil_of_get? data (c + 1) hg]
      rfl
    · obtain ⟨hlt, _⟩ := List.get?_eq_some.mp hg
      omega
  | succ n ih =>
    intro c v hle
    rcases hg : data.get? (c + 1) with _ | r
    · rw [backtrackLoop_oob data c _ _ (Or.inl rfl) hg, drop_nil_of_get? data (c + 1) hg]
      rfl
    · have hdrop := drop_cons_of_get? data (c + 1) r hg
      obtain ⟨hlt, _⟩ := List.get?_eq_some.mp hg
      rw [backtrackLoop_hospNone data c _ r hg, hdrop]
      rcases hr : r.hospitalCases with _ | h
      · rw [findSome?_cons_none _ _ _ hr]
        exact ih (c + 1) v (by omega)
      · rw [findSome?_cons_some _ _ _ h hr, backtrackLoop_done]
        rfl

/-- With both values missing, the loop finds the first non-null
hospital value strictly after the counter, then the first non-null
deaths value strictly after that, skipping the records the hospital
scan consumed. -/
theorem backtrackLoop_both_none (data : List CovidRecord) :
    ∀ (n c : Nat), data.length - c ≤ n →
      backtrackLoop data c none none =
        (match firstHosp (data.drop (c + 1)) with
         | none => none
         | some (h, rest) =>
           (List.findSome? (fun r => r.cumDailyNsoDeathsByDeathDate) rest).map
             (fun d => (h, d))) := by
  intro n
  induction n with
  | zero =>
    intro c hle
    rcases hg : data.get? (c + 1) with _ | r
    · rw [backtrackLoop_oob data c _ _ (Or.inl rfl) hg, drop_nil_of_get? data (c + 1) hg]
      rfl
    · obtain ⟨hlt, _⟩ := List.get?_eq_some.mp hg
      omega
  | succ n ih =>
    intro c hle
    rcases hg : data.get? (c + 1) with _ | r
    · rw [backtrackLoop_oob data c _ _ (Or.inl rfl) hg, drop_nil_of_get? data (c + 1) hg]
      rfl
    · have hdrop := drop_cons_of_get? data (c + 1) r hg
      obtain ⟨hlt, _⟩ := List.get?_eq_some.mp hg
      rw [backtrackLoop_hospNone data c _ r hg, hdrop]
      rcases hr : r.hospitalCases with _ | h
      · rw [firstHosp]
        simp only [hr]
        exact ih (c + 1) (by omega)
      · rw [firstHosp]
        simp only [hr]
        exact backtrackLoop_hosp_found data (data.length - (c + 1)) (c + 1) h le_rfl

/-- firstHosp finds exactly the first non-null hospital value. -/
theorem firstHosp_findSome (l : List CovidRecord) (h : Int) (rest : List CovidRecord)
    (hf : firstHosp l = some (h, rest)) :
    List.findSome? (fun r => r.hospitalCases) l = some h := by
  induction l generalizing rest with
  | nil => exact Option.noConfusion hf
  | cons r tl ih =>
    rw [firstHosp] at hf
    rcases hr : r.hospitalCases with _ | h2
    · rw [hr] at hf
      rw [findSome?_cons_none _ _ _ hr]
      exact ih rest hf
    · rw [hr] at hf
      rw [Option.some.injEq] at hf
      rw [findSome?_cons_some _ _ _ h2 hr, Option.some.injEq]
      exact congrArg Prod.fst hf

/-- Step lemma for the seven-day search loop: list exhausted. -/
theorem sevenDayFind_oob (data : List CovidRecord) (c : Nat)
    (hg : data.get? c = none) : sevenDayFind data c = none := by
  rw [sevenDayFind.eq_def]
  split
  · rfl
  · rename_i r heq
    rw [hg] at heq
    exact Option.noConfusion heq

/-- Step lemma for the seven-day search loop: current record
present. -/
theorem sevenDayFind_step (data : List CovidRecord) (c : Nat) (r : CovidRecord)
    (hg : data.get? c = some r) :
    sevenDayFind data c =
      (if r.newCasesBySpecimenDate.isSome then some c else sevenDayFind data (c + 1)) := by
  rw [sevenDayFind.eq_def]
  split
  · rename_i heq
    rw [hg] at heq
    exact Option.noConfusion heq
  · rename_i r2 heq
    rw [hg, Option.some.injEq] at heq
    subst heq
    rfl

/-- The seven-day search loop finds the first index at or after the
counter whose new-cases value is non-null. -/
theorem sevenDayFind_spec (data : List CovidRecord) :
    ∀ (n c : Nat), data.length - c ≤ n →
      sevenDayFind data c = (firstNewCasesIdx (data.drop c)).map (fun k => k + c) := by
  intro n
  induction n with
  | zero =>
    intro c hle
    rcases hg : data.get? c with _ | r
    · rw [sevenDayFind_oob data c hg, drop_nil_of_get? data c hg]
      rfl
    · obtain ⟨hlt, _⟩ := List.get?_eq_some.mp hg
      omega
  | succ n ih =>
    intro c hle
    rcases hg : data.get? c with _ | r
    · rw [sevenDayFind_oob data c hg, drop_nil_of_get? data c hg]
      rfl
    · obtain ⟨hlt, _⟩ := List.get?_eq_some.mp hg
      rw [sevenDayFind_step data c r hg, drop_cons_of_get? data c r hg, firstNewCasesIdx]
      by_cases hn : r.newCasesBySpecimenDate.isSome
      · rw [if_pos hn, if_pos hn]
        simp
      · rw [if_neg hn, if_neg hn, ih (c + 1) (by omega)]
        rw [Option.map_map]
        rcases firstNewCasesIdx (data.drop (c + 1)) with _ | k
        · rfl
        · show some (k + (c + 1)) = some (k + 1 + c)
          rw [Option.some.injEq]
          omega

/-- The summing loop computes the sum of the k-value window starting
at the given day. -/
theorem sevenDaySum_spec (data : List CovidRecord) :
    ∀ (k day : Nat),
      sevenDaySum data day k =
        (newCasesWindow (data.drop day) k).map (fun vs => vs.sum) := by
  intro k
  induction k with
  | zero =>
    intro day
    simp [sevenDaySum, newCasesWindow]
  | succ k ih =>
    intro day
    rw [sevenDaySum]
    rcases hg : data.get? day with _ | r
    · rw [drop_nil_of_get? data day hg]
      rfl
    · rw [drop_cons_of_get? data day r hg, newCasesWindow]
      rcases hr : r.newCasesBySpecimenDate with _ | c
      · simp [hr]
      · simp only [hr]
        rw [ih (day + 1), Option.map_map, Option.map_map]
        rcases newCasesWindow (data.drop (day + 1)) k with _ | vs
        · rfl
        · simp

/-- A produced window has exactly the requested length. -/
theorem newCasesWindow_length (l : List CovidRecord) :
    ∀ (k : Nat) (vs : List Int), newCasesWindow l k = some vs → vs.length = k := by
  induction l with
  | nil =>
    intro k vs h
    cases k
    · rw [newCasesWindow, Option.some.injEq] at h
      rw [← h]
      rfl
    · exact Option.noConfusion h
  | cons r tl ih =>
    intro k vs h
    cases k with
    | zero =>
      rw [newCasesWindow, Option.some.injEq] at h
      rw [← h]
      rfl
    | succ k =>
      rw [newCasesWindow] at h
      rcases hr : r.newCasesBySpecimenDate with _ | c
      · simp only [hr] at h
        exact Option.noConfusion h
      · simp only [hr] at h
        rcases hw : newCasesWindow tl k with _ | vs2
        · simp only [hw, Option.map_none'] at h
          exact Option.noConfusion h
        · simp only [hw, Option.map_some', Option.some.injEq] at h
          rw [← h]
          simp [ih k vs2 hw]

/-- C6: corrected.  The hospital-cases value is the first non-null
one scanning forward, and the seven-day sum is the window at the
first non-null new-cases index, as claimed; but the total-deaths scan
is not independent: when the most recent record has null deaths, the
reported deaths value is the first non-null one strictly after the
record where the hospital scan ended, skipping the records that scan
consumed (see the counterexample). -/
theorem C6_extraction_rules :
    (∀ (data : List CovidRecord) (h d : Int),
       process_covid_json_data_extract data = some (h, d) →
       List.findSome? (fun r => r.hospitalCases) data = some h ∧
       (((data.get? 0).bind (fun r => r.cumDailyNsoDeathsByDeathDate) = some d) ∨
        ((data.get? 0).bind (fun r => r.cumDailyNsoDeathsByDeathDate) = none ∧
         ∃ rest, firstHosp data = some (h, rest) ∧
           List.findSome? (fun r => r.cumDailyNsoDeathsByDeathDate) rest = some d)))
    ∧ (∀ (data : List CovidRecord) (s : Int),
       seven_day_case_calculator data = some s →
       ∃ c vals, firstNewCasesIdx data = some c ∧
         newCasesWindow (data.drop c) 7 = some vals ∧
         vals.length = 7 ∧ s = vals.sum) := by
  constructor
  · intro data h d hx
    rw [process_covid_json_data_extract] at hx
    rcases hg : data.get? 0 with _ | r0
    · rw [hg] at hx
      exact Option.noConfusion hx
    simp only [hg] at hx
    have hdrop : data.drop 0 = r0 :: data.drop (0 + 1) := drop_cons_of_get? data 0 r0 hg
    rw [List.drop_zero] at hdrop
    have hfsTail : ∀ (f : CovidRecord → Option Int), f r0 = none →
        List.findSome? f data = List.findSome? f (data.drop (0 + 1)) := by
      intro f hf
      calc List.findSome? f data = List.findSome? f (r0 :: data.drop (0 + 1)) := by rw [← hdrop]
        _ = List.findSome? f (data.drop (0 + 1)) := findSome?_cons_none _ _ _ hf
    have hfsHead : ∀ (f : CovidRecord → Option Int) (b : Int), f r0 = some b →
        List.findSome? f data = some b := by
      intro f b hf
      calc List.findSome? f data = List.findSome? f (r0 :: data.drop (0 + 1)) := by rw [← hdrop]
        _ = some b := findSome?_cons_some _ _ _ b hf
    rcases hh : r0.hospitalCases with _ | h0 <;>
      rcases hd : r0.cumDailyNsoDeathsByDeathDate with _ | d0
    · -- both null: combined backtracking
      rw [hh, hd, backtrackLoop_both_none data data.length 0 (by omega)] at hx
      rcases hf : firstHosp (data.drop (0 + 1)) with _ | pr
      · simp only [hf] at hx
        exact Option.noConfusion hx
      rcases pr with ⟨h1, rest⟩
      simp only [hf] at hx
      rcases hfd : List.findSome? (fun r => r.cumDailyNsoDeathsByDeathDate) rest with _ | d1
      · simp only [hfd, Option.map_none'] at hx
        exact Option.noConfusion hx
      simp only [hfd, Option.map_some', Option.some.injEq, Prod.mk.injEq] at hx
      obtain ⟨rfl, rfl⟩ := hx
      refine ⟨?_, Or.inr ⟨by simp [hd], ?_⟩⟩
      · rw [hfsTail _ hh]
        exact firstHosp_findSome _ _ _ hf
      · refine ⟨rest, ?_, hfd⟩
        calc firstHosp data = firstHosp (r0 :: data.drop (0 + 1)) := by rw [← hdrop]
          _ = firstHosp (data.drop (0 + 1)) := by simp [firstHosp, hh]
          _ = some (h1, rest) := hf
    · -- hospital null, deaths present
      rw [hh, hd, backtrackLoop_deaths_found data data.length 0 d0 (by omega)] at hx
      rcases hfh : List.findSome? (fun r => r.hospitalCases) (data.drop (0 + 1)) with _ | h1
      · simp only [hfh, Option.map_none'] at hx
        exact Option.noConfusion hx
      simp only [hfh, Option.map_some', Option.some.injEq, Prod.mk.injEq] at hx
      obtain ⟨rfl, rfl⟩ := hx
      refine ⟨?_, Or.inl (by simp [hd])⟩
      rw [hfsTail _ hh]
      exact hfh
    · -- hospital present, deaths null
      rw [hh, hd, backtrackLoop_hosp_found data data.length 0 h0 (by omega)] at hx
      rcases hfd : List.findSome? (fun r => r.cumDailyNsoDeathsByDeathDate)
          (data.drop (0 + 1)) with _ | d1
      · simp only [hfd, Option.map_none'] at hx
        exact Option.noConfusion hx
      simp only [hfd, Option.map_some', Option.some.injEq, Prod.mk.injEq] at hx
      obtain ⟨rfl, rfl⟩ := hx
      refine ⟨hfsHead _ _ hh, Or.inr ⟨by simp [hd], ?_⟩⟩
      refine ⟨data.drop (0 + 1), ?_, hfd⟩
      calc firstHosp data = firstHosp (r0 :: data.drop (0 + 1)) := by rw [← hdrop]
        _ = some (h0, data.drop (0 + 1)) := by simp [firstHosp, hh]
    · -- both present
      rw [hh, hd, backtrackLoop_done] at hx
      simp only [Option.some.injEq, Prod.mk.injEq] at hx
      obtain ⟨rfl, rfl⟩ := hx
      exact ⟨hfsHead _ _ hh, Or.inl (by simp [hd])⟩
  · intro data s hx
    rw [seven_day_case_calculator] at hx
    rcases hsf : sevenDayFind data 0 with _ | c
    · rw [hsf] at hx
      exact Option.noConfusion hx
    simp only [hsf] at hx
    have hspec := sevenDayFind_spec data data.length 0 (by omega)
    rw [hsf, List.drop_zero] at hspec
    rcases hfi : firstNewCasesIdx data with _ | c0
    · rw [hfi] at hspec
      exact Option.noConfusion hspec
    rw [hfi, Option.map_some', Option.some.injEq] at hspec
    have hsum := sevenDaySum_spec data 7 c
    rw [hx] at hsum
    rcases hw : newCasesWindow (data.drop c) 7 with _ | vals
    · rw [hw] at hsum
      exact Option.noConfusion hsum
    rw [hw, Option.map_some', Option.some.injEq] at hsum
    refine ⟨c, vals, ?_, hw, newCasesWindow_length _ 7 vals hw, hsum⟩
    rw [Option.some.injEq]
    omega

/-- C6 witness: for ten records whose most recent two have null
hospitalCases (and a non-null deaths value up front), the reported
hospital value is the record-index-2 value, the first non-null one
scanning forward. -/
theorem C6_extraction_rules_witness :
    List.findSome? (fun r => r.hospitalCases) covidDataTen = some 5 := by
  have hb : backtrackLoop covidDataTen 0 none (some 100) = some (5, 100) := by
    rw [backtrackLoop_hospNone covidDataTen 0 (some 100) ⟨none, some 98, some 2⟩ (by decide)]
    show backtrackLoop covidDataTen 1 none (some 100) = some (5, 100)
    rw [backtrackLoop_hospNone covidDataTen 1 (some 100) ⟨some 5, some 97, some 3⟩ (by decide)]
    show backtrackLoop covidDataTen 2 (some 5) (some 100) = some (5, 100)
    exact backtrackLoop_done covidDataTen 2 5 100
  have hx : process_covid_json_data_extract covidDataTen = some (5, 100) := hb
  exact (C6_extraction_rules.1 covidDataTen 5 100 hx).1

/-- C6 counterexample: when the most recent record has both fields
null and the next record carries both values, the deaths value
reported is the one at index 2, not the index-1 value that an
independent smallest-index scan would give. -/
theorem C6_counterexample :
    process_covid_json_data_extract covidDataExample = some (3, 9) ∧
    List.findSome? (fun r => r.cumDailyNsoDeathsByDeathDate) covidDataExample = some 7 ∧
    ((9 : Int) = 7 → False) := by
  refine ⟨?_, by decide, by decide⟩
  have hb : backtrackLoop covidDataExample 0 none none = some (3, 9) := by
    rw [backtrackLoop_hospNone covidDataExample 0 none ⟨some 3, some 7, some 1⟩ (by decide)]
    show backtrackLoop covidDataExample 1 (some 3) none = some (3, 9)
    rw [backtrackLoop_deathsNone covidDataExample 1 3 ⟨some 4, some 9, some 1⟩ (by decide)]
    show backtrackLoop covidDataExample 2 (some 3) (some 9) = some (3, 9)
    exact backtrackLoop_done covidDataExample 2 3 9
  exact hb

/-! # Claims: provider failure handling (C7) -/

/-- C7: corrected.  There is no initial-versus-scheduled asymmetry in
the code: covid_API_request runs test_covid_API_request on every
call, scheduled refreshes included, and a missing payload or a null
data entry raises SystemExit, uncaught, on any of them; SystemExit
arises only from those checks (the later processing can only raise
IndexError).  The news-side test behaves the same way. -/
theorem C7_refresh_failure_fatal :
    (∀ (loc : Option ApiPayload), covid_API_request none loc = .error .systemExit)
    ∧ (∀ (loc : Option ApiPayload),
        covid_API_request (some ⟨none⟩) loc = .error .systemExit)
    ∧ (∀ (engData : List CovidRecord),
        covid_API_request (some ⟨some engData⟩) none = .error .systemExit)
    ∧ (∀ (engData : List CovidRecord),
        covid_API_request (some ⟨some engData⟩) (some ⟨none⟩) = .error .systemExit)
    ∧ test_news_api_request none = .error .systemExit
    ∧ test_news_api_request (some ⟨none⟩) = .error .systemExit
    ∧ (∀ (eng loc : Option ApiPayload),
        test_covid_API_request eng loc = .ok () →
        covid_API_request eng loc ≠ .error .systemExit) := by
  refine ⟨fun loc => rfl, fun loc => rfl, fun engData => rfl, fun engData => rfl,
    rfl, rfl, ?_⟩
  intro eng loc ht
  rcases eng with _ | ep
  · simp [test_covid_API_request] at ht
  rcases hpd : ep.data with _ | engData
  · simp [test_covid_API_request, hpd] at ht
  rcases loc with _ | lp
  · simp [test_covid_API_request, hpd] at ht
  rcases hld : lp.data with _ | locData
  · simp [test_covid_API_request, hpd, hld] at ht
  simp only [covid_API_request, ht, hpd, hld]
  rcases hp : process_covid_json_data_extract engData with _ | pr
  · simp
  rcases pr with ⟨h, d⟩
  rcases hse : seven_day_case_calculator engData with _ | engSeven
  · simp
  rcases hsl : seven_day_case_calculator locData with _ | locSeven
  · simp
  simp

/-- C7 counterexample: a refresh whose provider returns no national
payload raises SystemExit, whether it is the startup fetch or a
scheduled one (there is only one code path), contradicting the
claimed non-fatal handling; the news test does the same. -/
theorem C7_counterexample :
    covid_API_request none (some ⟨some []⟩) = .error .systemExit ∧
    Except.error PyCrash.systemExit ≠
      (Except.ok ((0 : Int), (0 : Int), (0 : Int), (0 : Int)) :
        Except PyCrash (Int × Int × Int × Int)) := by
  exact ⟨rfl, by simp⟩

/-- C7 witness: with both payloads present and well-formed the
request does not raise SystemExit. -/
theorem C7_refresh_failure_fatal_witness :
    covid_API_request (some ⟨some []⟩) (some ⟨some []⟩) ≠ .error .systemExit := by
  exact C7_refresh_failure_fatal.2.2.2.2.2.2 (some ⟨some []⟩) (some ⟨some []⟩) rfl

/-! # Lemmas: the removing-for-loop combinators -/

theorem pyLoopRemove_stop {α σ : Type} [DecidableEq α] (cond : α → Bool) (eff : α → σ → σ)
    (l : List α) (s : σ) (i : Nat) (h : ¬ i < l.length) :
    pyLoopRemove cond eff l s i = (l, s) := by
  rw [pyLoopRemove]
  simp [h]

theorem pyLoopRemove_hit {α σ : Type} [DecidableEq α] (cond : α → Bool) (eff : α → σ → σ)
    (l : List α) (s : σ) (i : Nat) (x : α) (hx : l.get? i = some x)
    (hc : cond x = true) :
    pyLoopRemove cond eff l s i = pyLoopRemove cond eff (l.erase x) (eff x s) (i + 1) := by
  obtain ⟨h, hg⟩ := List.get?_eq_some.mp hx
  rw [pyLoopRemove, dif_pos h]
  simp only [List.get_eq_getElem] at hg
  simp [hg, hc]

theorem pyLoopRemove_miss {α σ : Type} [DecidableEq α] (cond : α → Bool) (eff : α → σ → σ)
    (l : List α) (s : σ) (i : Nat) (x : α) (hx : l.get? i = some x)
    (hc : cond x = false) :
    pyLoopRemove cond eff l s i = pyLoopRemove cond eff l s (i + 1) := by
  obtain ⟨h, hg⟩ := List.get?_eq_some.mp hx
  rw [pyLoopRemove, dif_pos h]
  simp only [List.get_eq_getElem] at hg
  simp [hg, hc]

theorem pyLoopRemoveFallible_stop {α σ : Type} [DecidableEq α] (cond : α → Option Bool)
    (eff : α → σ → σ) (l : List α) (s : σ) (i : Nat) (h : ¬ i < l.length) :
    pyLoopRemoveFallible cond eff l s i = some (l, s) := by
  rw [pyLoopRemoveFallible]
  simp [h]

theorem pyLoopRemoveFallible_hit {α σ : Type} [DecidableEq α] (cond : α → Option Bool)
    (eff : α → σ → σ) (l : List α) (s : σ) (i : Nat) (x : α) (hx : l.get? i = some x)
    (hc : cond x = some true) :
    pyLoopRemoveFallible cond eff l s i =
      pyLoopRemoveFallible cond eff (l.erase x) (eff x s) (i + 1) := by
  obtain ⟨h, hg⟩ := List.get?_eq_some.mp hx
  rw [pyLoopRemoveFallible, dif_pos h]
  simp only [List.get_eq_getElem] at hg
  simp [hg, hc]

theorem pyLoopRemoveFallible_miss {α σ : Type} [DecidableEq α] (cond : α → Option Bool)
    (eff : α → σ → σ) (l : List α) (s : σ) (i : Nat) (x : α) (hx : l.get? i = some x)
    (hc : cond x = some false) :
    pyLoopRemoveFallible cond eff l s i = pyLoopRemoveFallible cond eff l s (i + 1) := by
  obtain ⟨h, hg⟩ := List.get?_eq_some.mp hx
  rw [pyLoopRemoveFallible, dif_pos h]
  simp only [List.get_eq_getElem] at hg
  simp [hg, hc]

/-- A loop whose condition matches nothing leaves list and state
untouched. -/
theorem pyLoopRemove_all_false_aux {α σ : Type} [DecidableEq α] (cond : α → Bool)
    (eff : α → σ → σ) :
    ∀ (n : Nat) (l : List α) (s : σ) (i : Nat), l.length - i ≤ n →
      (∀ x ∈ l, cond x = false) → pyLoopRemove cond eff l s i = (l, s) := by
  intro n
  induction n with
  | zero =>
    intro l s i hle hall
    rcases hg : l.get? i with _ | x
    · exact pyLoopRemove_stop cond eff l s i (by
        intro hlt
        rw [List.get?_eq_none] at hg
        omega)
    · obtain ⟨hlt, _⟩ := List.get?_eq_some.mp hg
      omega
  | succ n ih =>
    intro l s i hle hall
    rcases hg : l.get? i with _ | x
    · exact pyLoopRemove_stop cond eff l s i (by
        intro hlt
        rw [List.get?_eq_none] at hg
        omega)
    · obtain ⟨hlt, _⟩ := List.get?_eq_some.mp hg
      have hmem : x ∈ l := List.get?_mem hg
      rw [pyLoopRemove_miss cond eff l s i x hg (hall x hmem)]
      exact ih l s (i + 1) (by omega) hall

theorem pyLoopRemove_all_false {α σ : Type} [DecidableEq α] (cond : α → Bool)
    (eff : α → σ → σ) (l : List α) (s : σ) (i : Nat)
    (hall : ∀ x ∈ l, cond x = false) : pyLoopRemove cond eff l s i = (l, s) :=
  pyLoopRemove_all_false_aux cond eff (l.length - i) l s i le_rfl hall

theorem pyLoopRemoveFallible_all_false_aux {α σ : Type} [DecidableEq α]
    (cond : α → Option Bool) (eff : α → σ → σ) :
    ∀ (n : Nat) (l : List α) (s : σ) (i : Nat), l.length - i ≤ n →
      (∀ x ∈ l, cond x = some false) →
      pyLoopRemoveFallible cond eff l s i = some (l, s) := by
  intro n
  induction n with
  | zero =>
    intro l s i hle hall
    rcases hg : l.get? i with _ | x
    · exact pyLoopRemoveFallible_stop cond eff l s i (by
        intro hlt
        rw [List.get?_eq_none] at hg
        omega)
    · obtain ⟨hlt, _⟩ := List.get?_eq_some.mp hg
      omega
  | succ n ih =>
    intro l s i hle hall
    rcases hg : l.get? i with _ | x
    · exact pyLoopRemoveFallible_stop cond eff l s i (by
        intro hlt
        rw [List.get?_eq_none] at hg
        omega)
    · obtain ⟨hlt, _⟩ := List.get?_eq_some.mp hg
      have hmem : x ∈ l := List.get?_mem hg
      rw [pyLoopRemoveFallible_miss cond eff l s i x hg (hall x hmem)]
      exact ih l s (i + 1) (by omega) hall

theorem pyLoopRemoveFallible_all_false {α σ : Type} [DecidableEq α]
    (cond : α → Option Bool) (eff : α → σ → σ) (l : List α) (s : σ) (i : Nat)
    (hall : ∀ x ∈ l, cond x = some false) :
    pyLoopRemoveFallible cond eff l s i = some (l, s) :=
  pyLoopRemoveFallible_all_false_aux cond eff (l.length - i) l s i le_rfl hall

/-- The loop characterization: starting at the index right after an
already-scanned prefix of non-matching elements, and provided no two
adjacent elements of the remaining suffix both match, the loop
removes exactly the matching elements of the suffix and runs the
effect on them in order.  (Without the adjacency condition the
element after a removed one is skipped.) -/
theorem pyLoopRemove_chain {α σ : Type} [DecidableEq α] (cond : α → Bool)
    (eff : α → σ → σ) :
    ∀ (n : Nat) (suf pre : List α) (s : σ), suf.length ≤ n →
      (∀ x ∈ pre, cond x = false) →
      List.Chain' (fun a b => ¬(cond a = true ∧ cond b = true)) suf →
      pyLoopRemove cond eff (pre ++ suf) s pre.length =
        (pre ++ suf.filter (fun x => !cond x),
         List.foldl (fun s2 x => eff x s2) s (suf.filter (fun x => cond x))) := by
  intro n
  induction n with
  | zero =>
    intro suf pre s hle hpre hchain
    have hsuf : suf = [] := List.eq_nil_of_length_eq_zero (by omega)
    subst hsuf
    rw [pyLoopRemove_stop cond eff _ s pre.length (by simp)]
    simp
  | succ n ih =>
    intro suf pre s hle hpre hchain
    rcases suf with _ | ⟨x, rest⟩
    · rw [pyLoopRemove_stop cond eff _ s pre.length (by simp)]
      simp
    have hget : (pre ++ x :: rest).get? pre.length = some x := by
      rw [List.get?_append_right le_rfl]
      simp
    rcases hc : cond x with _ | _
    · -- cond x = false: keep and advance
      rw [pyLoopRemove_miss cond eff _ s pre.length x hget hc]
      have hpre2 : ∀ y ∈ pre ++ [x], cond y = false := by
        intro y hy
        rcases List.mem_append.mp hy with hy | hy
        · exact hpre y hy
        · simp only [List.mem_singleton] at hy
          subst hy
          exact hc
      have := ih rest (pre ++ [x]) s (by simpa using Nat.le_of_succ_le_succ (by simpa using hle))
        hpre2 (hchain.tail)
      rw [show pre ++ x :: rest = (pre ++ [x]) ++ rest by simp,
          show pre.length + 1 = (pre ++ [x]).length by simp, this]
      simp [List.filter_cons, hc]
    · -- cond x = true: remove, run effect, skip the next element
      have hxnotpre : x ∉ pre := by
        intro hmem
        rw [hpre x hmem] at hc
        exact Bool.noConfusion hc
      have herase : (pre ++ x :: rest).erase x = pre ++ rest := by
        rw [List.erase_append_right _ hxnotpre, List.erase_cons_head]
      rw [pyLoopRemove_hit cond eff _ s pre.length x hget hc, herase]
      rcases rest with _ | ⟨y, rest2⟩
      · rw [pyLoopRemove_stop cond eff _ _ (pre.length + 1) (by simp)]
        simp [List.filter_cons, hc]
      have hy : cond y = false := by
        have hpair := List.chain'_cons.mp hchain
        rcases hcy : cond y with _ | _
        · rfl
        · exact absurd ⟨hc, hcy⟩ hpair.1
      have hpre2 : ∀ z ∈ pre ++ [y], cond z = false := by
        intro z hz
        rcases List.mem_append.mp hz with hz | hz
        · exact hpre z hz
        · simp only [List.mem_singleton] at hz
          subst hz
          exact hy
      have hchain2 : List.Chain' (fun a b => ¬(cond a = true ∧ cond b = true)) rest2 :=
        (hchain.tail).tail
      have := ih rest2 (pre ++ [y]) (eff x s) (by simp at hle ⊢; omega) hpre2 hchain2
      rw [show pre ++ y :: rest2 = (pre ++ [y]) ++ rest2 by simp,
          show pre.length + 1 = (pre ++ [y]).length by simp, this]
      simp [List.filter_cons, hc, hy]

/-- The fallible-condition version of the loop characterization; the
conditions of the suffix must all be defined (a raising condition
aborts the whole loop). -/
theorem pyLoopRemoveFallible_chain {α σ : Type} [DecidableEq α] (cond : α → Option Bool)
    (eff : α → σ → σ) :
    ∀ (n : Nat) (suf pre : List α) (s : σ), suf.length ≤ n →
      (∀ x ∈ pre, cond x = some false) →
      (∀ x ∈ suf, (cond x).isSome) →
      List.Chain' (fun a b => ¬(cond a = some true ∧ cond b = some true)) suf →
      pyLoopRemoveFallible cond eff (pre ++ suf) s pre.length =
        some (pre ++ suf.filter (fun x => cond x == some false),
          List.foldl (fun s2 x => eff x s2) s
            (suf.filter (fun x => cond x == some true))) := by
  intro n
  induction n with
  | zero =>
    intro suf pre s hle hpre hdef hchain
    have hsuf : suf = [] := List.eq_nil_of_length_eq_zero (by omega)
    subst hsuf
    rw [pyLoopRemoveFallible_stop cond eff _ s pre.length (by simp)]
    simp
  | succ n ih =>
    intro suf pre s hle hpre hdef hchain
    rcases suf with _ | ⟨x, rest⟩
    · rw [pyLoopRemoveFallible_stop cond eff _ s pre.length (by simp)]
      simp
    have hget : (pre ++ x :: rest).get? pre.length = some x := by
      rw [List.get?_append_right le_rfl]
      simp
    have hdefx := hdef x (by simp)
    rcases hcx : cond x with _ | b
    · rw [hcx] at hdefx
      exact absurd hdefx (by simp)
    rcases b with _ | _
    · -- some false: keep and advance
      rw [pyLoopRemoveFallible_miss cond eff _ s pre.length x hget hcx]
      have hpre2 : ∀ y ∈ pre ++ [x], cond y = some false := by
        intro y hy
        rcases List.mem_append.mp hy with hy | hy
        · exact hpre y hy
        · simp only [List.mem_singleton] at hy
          subst hy
          exact hcx
      have := ih rest (pre ++ [x]) s (by simp at hle ⊢; omega)
        hpre2 (fun z hz => hdef z (by simp [hz])) (hchain.tail)
      rw [show pre ++ x :: rest = (pre ++ [x]) ++ rest by simp,
          show pre.length + 1 = (pre ++ [x]).length by simp, this]
      simp [List.filter_cons, hcx]
    · -- some true: remove, run effect, skip the next element
      have hxnotpre : x ∉ pre := by
        intro hmem
        rw [hpre x hmem] at hcx
        simp at hcx
      have herase : (pre ++ x :: rest).erase x = pre ++ rest := by
        rw [List.erase_append_right _ hxnotpre, List.erase_cons_head]
      rw [pyLoopRemoveFallible_hit cond eff _ s pre.length x hget hcx, herase]
      rcases rest with _ | ⟨y, rest2⟩
      · rw [pyLoopRemoveFallible_stop cond eff _ _ (pre.length + 1) (by simp)]
        simp [List.filter_cons, hcx]
      have hy : cond y = some false := by
        have hpair := List.chain'_cons.mp hchain
        have hdefy := hdef y (by simp)
        rcases hcy : cond y with _ | b2
        · rw [hcy] at hdefy
          exact absurd hdefy (by simp)
        rcases b2 with _ | _
        · rfl
        · exact absurd ⟨hcx, hcy⟩ hpair.1
      have hpre2 : ∀ z ∈ pre ++ [y], cond z = some false := by
        intro z hz
        rcases List.mem_append.mp hz with hz | hz
        · exact hpre z hz
        · simp only [List.mem_singleton] at hz
          subst hz
          exact hy
      have hchain2 := (hchain.tail).tail
      have := ih rest2 (pre ++ [y]) (eff x s) (by simp at hle ⊢; omega) hpre2
        (fun z hz => hdef z (by simp [hz])) hchain2
      rw [show pre ++ y :: rest2 = (pre ++ [y]) ++ rest2 by simp,
          show pre.length + 1 = (pre ++ [y]).length by simp, this]
      simp [List.filter_cons, hcx, hy]

/-- A list of non-matching elements has no two adjacent matches. -/
theorem chain'_of_all_false {α : Type} (cond : α → Bool) :
    ∀ (l : List α), (∀ u ∈ l, cond u = false) →
      List.Chain' (fun a b => ¬(cond a = true ∧ cond b = true)) l := by
  intro l
  induction l with
  | nil => intro _; simp
  | cons a tl ih =>
    intro h
    rw [List.chain'_cons']
    refine ⟨?_, ih (fun u hu => h u (by simp [hu]))⟩
    intro b hb hcon
    rw [h a (by simp)] at hcon
    exact Bool.noConfusion hcon.1

/-- A list with a single matching element between non-matching ones
has no two adjacent matches. -/
theorem chain'_single_true {α : Type} (cond : α → Bool) :
    ∀ (pre post : List α) (x : α),
      (∀ u ∈ pre, cond u = false) → (∀ u ∈ post, cond u = false) →
      List.Chain' (fun a b => ¬(cond a = true ∧ cond b = true)) (pre ++ x :: post) := by
  intro pre
  induction pre with
  | nil =>
    intro post x _ hpost
    rw [List.nil_append, List.chain'_cons']
    refine ⟨?_, chain'_of_all_false cond post hpost⟩
    intro b hb hcon
    rcases post with _ | ⟨c, post2⟩
    · simp at hb
    · simp only [List.head?_cons, Option.mem_def, Option.some.injEq] at hb
      subst hb
      rw [hpost c (by simp)] at hcon
      exact Bool.noConfusion hcon.2
  | cons a pre2 ih =>
    intro post x hpre hpost
    rw [List.cons_append, List.chain'_cons']
    refine ⟨?_, ih post x (fun u hu => hpre u (by simp [hu])) hpost⟩
    intro b hb hcon
    rw [hpre a (by simp)] at hcon
    exact Bool.noConfusion hcon.1

/-- Matching nothing in the info list means the name differs
everywhere. -/
theorem info_cond_false (name : String) (l : List QueueInfoEntry)
    (h : ∀ u ∈ l, u.event_name ≠ name) :
    ∀ u ∈ l, (u.event_name == name) = false := by
  intro u hu
  exact beq_eq_false_iff_ne.mpr (h u hu)

/-- C8: corrected.  Cancelling a name with no queue-info record is an
exact no-op (for both scheduler modules and both expired flags); but
cancelling a name whose record is stale (its event no longer in the
sched queue, e.g. already fired) is not state-preserving: the sched
queue and everything else survive and no error escapes (the
ValueError of the failed cancel is caught), yet the stale queue-info
record itself is deleted, as the counterexample shows. -/
theorem C8_cancel_missing_or_fired :
    (∀ (st : SchedState) (name : String) (expired : Bool),
       (∀ u ∈ st.info, u.event_name ≠ name) →
       remove_covid_data_update name expired st = st)
    ∧ (∀ (st : SchedState) (name : String) (expired : Bool),
       (∀ u ∈ st.info, u.event_name ≠ name) →
       remove_news_update name expired st = st)
    ∧ (∀ (q : List SchedEvent) (pre post : List QueueInfoEntry) (e : SchedEvent)
         (name : String) (rep : Bool),
       (∀ u ∈ pre, u.event_name ≠ name) →
       (∀ u ∈ post, u.event_name ≠ name) →
       e ∉ q →
       remove_covid_data_update name false ⟨q, pre ++ ⟨e, name, rep⟩ :: post⟩ =
         ⟨q, pre ++ post⟩) := by
  have hnoop : ∀ (st : SchedState) (name : String) (expired : Bool),
      (∀ u ∈ st.info, u.event_name ≠ name) → remove_source_update name expired st = st := by
    intro st name expired hmiss
    have hcf := info_cond_false name st.info hmiss
    rcases st with ⟨q, info⟩
    simp only [remove_source_update]
    cases expired
    · simp only [Bool.false_eq_true, if_false]
      rw [pyLoopRemove_all_false _ _ info q 0 hcf]
    · simp only [if_true]
      rw [pyLoopRemove_all_false _ _ info () 0 hcf]
      rw [pyLoopRemove_all_false _ _ info q 0 hcf]
  refine ⟨fun st name expired h => hnoop st name expired h,
          fun st name expired h => hnoop st name expired h, ?_⟩
  intro q pre post e name rep hpre hpost hq
  have hcpre := info_cond_false name pre hpre
  have hcpost := info_cond_false name post hpost
  have hchain := chain'_single_true (fun u => u.event_name == name) pre post
    ⟨e, name, rep⟩ hcpre hcpost
  have hloop := pyLoopRemove_chain (fun u => u.event_name == name)
    (fun u q2 => q2.erase u.event_id)
    (pre ++ ⟨e, name, rep⟩ :: post).length (pre ++ ⟨e, name, rep⟩ :: post) [] q
    le_rfl (by simp) hchain
  simp only [List.nil_append, List.length_nil] at hloop
  have hfiltKeep : (pre ++ ⟨e, name, rep⟩ :: post).filter
      (fun u => !(u.event_name == name)) = pre ++ post := by
    rw [List.filter_append, List.filter_cons]
    have : ((⟨e, name, rep⟩ : QueueInfoEntry).event_name == name) = true := by simp
    simp only [this, Bool.not_true, Bool.false_eq_true, if_false]
    rw [List.filter_eq_self.mpr (by intro u hu; simp [hcpre u hu]),
        List.filter_eq_self.mpr (by intro u hu; simp [hcpost u hu])]
  have hfiltHit : (pre ++ ⟨e, name, rep⟩ :: post).filter
      (fun u => u.event_name == name) = [⟨e, name, rep⟩] := by
    rw [List.filter_append, List.filter_cons]
    have : ((⟨e, name, rep⟩ : QueueInfoEntry).event_name == name) = true := by simp
    simp only [this, if_true]
    rw [List.filter_eq_nil_iff.mpr (by intro u hu; simp [hcpre u hu]),
        List.filter_eq_nil_iff.mpr (by intro u hu; simp [hcpost u hu])]
    rfl
  rw [hfiltKeep, hfiltHit] at hloop
  simp only [List.foldl_cons, List.foldl_nil] at hloop
  simp only [remove_covid_data_update, remove_source_update, Bool.false_eq_true, if_false]
  rw [hloop]
  rw [List.erase_of_not_mem hq]

/-- C8 witness: cancelling a stale record whose event already left
the queue removes only that record and raises nothing. -/
theorem C8_cancel_missing_or_fired_witness :
    remove_covid_data_update "x" false ⟨[], [⟨⟨100, 1, .covid⟩, "x", true⟩]⟩ =
      ⟨[], [] ++ []⟩ := by
  have h := C8_cancel_missing_or_fired.2.2 [] [] [] ⟨100, 1, .covid⟩ "x" true
    (by intro u hu; simp at hu) (by intro u hu; simp at hu) (by simp)
  simpa using h

/-- C8 counterexample: cancelling a tag whose scheduler event already
fired is not state-preserving: the stale covid_queue_info record is
deleted. -/
theorem C8_counterexample :
    remove_covid_data_update "n" false ⟨[], [⟨⟨100, 1, .covid⟩, "n", true⟩]⟩ =
      ⟨[], []⟩ ∧
    ([] : List QueueInfoEntry) ≠ [⟨⟨100, 1, SchedAct.covid⟩, "n", true⟩] := by
  constructor
  · have h1 : pyLoopRemove (fun (u : QueueInfoEntry) => u.event_name == "n")
        (fun u q2 => q2.erase u.event_id)
        [⟨⟨100, 1, .covid⟩, "n", true⟩] ([] : List SchedEvent) 0 = ([], []) := by
      rw [pyLoopRemove_hit _ _ _ _ _ ⟨⟨100, 1, SchedAct.covid⟩, "n", true⟩
        (by decide) (by decide)]
      show pyLoopRemove _ _ ([] : List QueueInfoEntry) ([] : List SchedEvent) 1 = ([], [])
      rw [pyLoopRemove_stop _ _ _ _ _ (by decide)]
    simp only [remove_covid_data_update, remove_source_update, Bool.false_eq_true, if_false]
    rw [h1]
  · decide

/-- C4: corrected.  The expiry test retires an entry only when its
target hour equals the current hour (a target hour strictly earlier
than the current hour never matches, see the counterexample) and its
minute has been reached; and because the scan removes from the list
it iterates, the entry after a removed one is skipped that poll.
Under the conditions that every entry's time parses and no two
adjacent entries are simultaneously expired, one poll with no manual
removal request retires exactly the expired entries and runs the
per-source bookkeeping on them in order. -/
theorem C4_expired_scan :
    ∀ (wall : Nat × Nat) (st : DashState),
      (∀ u ∈ st.scheduled_updates, (expiredCond wall u).isSome) →
      List.Chain' (fun a b =>
        ¬(expiredCond wall a = some true ∧ expiredCond wall b = some true))
        st.scheduled_updates →
      remove_scheduled_update none wall st =
        some ⟨st.scheduled_updates.filter (fun u => expiredCond wall u == some false),
          (List.foldl (fun s2 u => expiredEffect u s2) (st.covidSched, st.newsSched)
            (st.scheduled_updates.filter (fun u => expiredCond wall u == some true))).1,
          (List.foldl (fun s2 u => expiredEffect u s2) (st.covidSched, st.newsSched)
            (st.scheduled_updates.filter (fun u => expiredCond wall u == some true))).2⟩ := by
  intro wall st hdef hchain
  rcases st with ⟨reg, cs, ns⟩
  simp only [remove_scheduled_update]
  have hloop := pyLoopRemoveFallible_chain (expiredCond wall) expiredEffect
    reg.length reg [] (cs, ns) le_rfl (by simp) hdef hchain
  simp only [List.nil_append, List.length_nil] at hloop
  rw [hloop]
  rfl

/-- C4 witness: one poll at 11:05 retires the expired 11:00 update
(running its covid bookkeeping) and keeps the 12:00 one. -/
theorem C4_expired_scan_witness :
    remove_scheduled_update none (11, 5)
      ⟨[mk_schedule_dictionary "a" true false false "11:00",
        mk_schedule_dictionary "b" true false false "12:00"], ⟨[], []⟩, ⟨[], []⟩⟩ =
      some ⟨[mk_schedule_dictionary "a" true false false "11:00",
             mk_schedule_dictionary "b" true false false "12:00"].filter
               (fun u => expiredCond (11, 5) u == some false),
        (List.foldl (fun s2 u => expiredEffect u s2) (⟨[], []⟩, ⟨[], []⟩)
          ([mk_schedule_dictionary "a" true false false "11:00",
            mk_schedule_dictionary "b" true false false "12:00"].filter
              (fun u => expiredCond (11, 5) u == some true))).1,
        (List.foldl (fun s2 u => expiredEffect u s2) (⟨[], []⟩, ⟨[], []⟩)
          ([mk_schedule_dictionary "a" true false false "11:00",
            mk_schedule_dictionary "b" true false false "12:00"].filter
              (fun u => expiredCond (11, 5) u == some true))).2⟩ := by
  exact C4_expired_scan (11, 5)
    ⟨[mk_schedule_dictionary "a" true false false "11:00",
      mk_schedule_dictionary "b" true false false "12:00"], ⟨[], []⟩, ⟨[], []⟩⟩
    (by decide)
    (by
      rw [List.chain'_cons]
      exact ⟨by decide, List.chain'_singleton _⟩)

/-- C4 counterexample: an update whose target hour is strictly
earlier than the current hour (10:00 at wall clock 11:05) is not
retired by the poll: the expiry test compares hours with equality,
so the entry survives unchanged. -/
theorem C4_counterexample :
    remove_scheduled_update none (11, 5)
      ⟨[mk_schedule_dictionary "update1" true false false "10:00"], ⟨[], []⟩, ⟨[], []⟩⟩ =
      some ⟨[mk_schedule_dictionary "update1" true false false "10:00"], ⟨[], []⟩, ⟨[], []⟩⟩ ∧
    expiredCond (11, 5) (mk_schedule_dictionary "update1" true false false "10:00") =
      some false ∧
    (10 : Nat) < 11 := by
  refine ⟨?_, by decide, by decide⟩
  simp only [remove_scheduled_update]
  rw [pyLoopRemoveFallible_all_false _ _ _ _ _ (by decide)]
  rfl

/-! # Lemmas and claims: duplicate scheduling (C1) -/

/-- Scheduling on an empty queue with a positive delay: the event is
entered and survives the non-blocking run, and its info record is
appended. -/
theorem schedule_source_update_empty (act : SchedAct) (now interval : Int)
    (name : String) (rep : Bool) (hpos : 0 < interval) :
    schedule_source_update act now interval name rep ⟨[], []⟩ =
      some ⟨[⟨now + interval, 1, act⟩], [⟨⟨now + interval, 1, act⟩, name, rep⟩]⟩ := by
  have h : now < now + interval := by omega
  simp only [schedule_source_update, heapInsert, runDue]
  simp [h]

/-- Scheduling a second time while the first event is still pending:
sched.enter simply adds a second event (the absolute times differ),
and since the new queue[-1] record differs from the stored one, a
second info record is appended as well. -/
theorem schedule_source_update_second (act : SchedAct) (now1 now2 interval : Int)
    (name : String) (rep : Bool) (h12 : now1 < now2) (hpos : 0 < interval)
    (hnotdue : now2 < now1 + interval) :
    schedule_source_update act now2 interval name rep
      ⟨[⟨now1 + interval, 1, act⟩], [⟨⟨now1 + interval, 1, act⟩, name, rep⟩]⟩ =
      some ⟨[⟨now1 + interval, 1, act⟩, ⟨now2 + interval, 1, act⟩],
            [⟨⟨now1 + interval, 1, act⟩, name, rep⟩,
             ⟨⟨now2 + interval, 1, act⟩, name, rep⟩]⟩ := by
  have hlt : eventLt ⟨now2 + interval, 1, act⟩ ⟨now1 + interval, 1, act⟩ = false := by
    simp only [eventLt]
    rw [decide_eq_false (by omega : ¬ (now2 + interval < now1 + interval)),
        decide_eq_false (by omega : ¬ (now2 + interval = now1 + interval))]
    rfl
  have hne : (⟨⟨now1 + interval, 1, act⟩, name, rep⟩ : QueueInfoEntry) ≠
      ⟨⟨now2 + interval, 1, act⟩, name, rep⟩ := by
    intro hcon
    have := congrArg (fun u => u.event_id.time) hcon
    simp only at this
    omega
  have h1 : now2 < now1 + interval := hnotdue
  have h2 : now2 < now2 + interval := by omega
  simp only [schedule_source_update, heapInsert, hlt, Bool.false_eq_true, if_false, runDue]
  simp [h1, h2, hne]
  omega

/-- The delay schedule_update computes for target "12:00" with the
frozen clock at 10:00. -/
theorem time_buffer_default_ten_1200 :
    time_buffer_default tenOClock "12:00" = some 7200 := by
  rw [time_buffer_default,
      time_buffer_not_past tenOClock "12:00" _ 12 0 (by decide) (by decide) (by decide)]
  decide

/-- Two identical covid-only schedule_update requests with the same
tag, the second arriving while the first event is still pending: the
registry dedupes the record, but the covid scheduler queue and its
info list each gain a second entry. -/
theorem schedule_update_twice (name : String) (now1 now2 : Int)
    (h12 : now1 < now2) (hnd : now2 < now1 + 7200) :
    (schedule_update tenOClock 60 now1 name "12:00" none (some "covid-data") none
        ⟨[], ⟨[], []⟩, ⟨[], []⟩⟩).bind
      (schedule_update tenOClock 60 now2 name "12:00" none (some "covid-data") none) =
      some ⟨[mk_schedule_dictionary name true false false "12:00"],
        ⟨[⟨now1 + 7200, 1, .covid⟩, ⟨now2 + 7200, 1, .covid⟩],
         [⟨⟨now1 + 7200, 1, .covid⟩, name, false⟩,
          ⟨⟨now2 + 7200, 1, .covid⟩, name, false⟩]⟩,
        ⟨[], []⟩⟩ := by
  have hne : ¬ ("12:00" : String) = "" := by decide
  have hfirst : schedule_update tenOClock 60 now1 name "12:00" none (some "covid-data") none
      ⟨[], ⟨[], []⟩, ⟨[], []⟩⟩ =
      some ⟨[mk_schedule_dictionary name true false false "12:00"],
        ⟨[⟨now1 + 7200, 1, .covid⟩], [⟨⟨now1 + 7200, 1, .covid⟩, name, false⟩]⟩,
        ⟨[], []⟩⟩ := by
    simp only [schedule_update, if_neg hne, time_buffer_default_ten_1200,
      Option.map_some', Option.isSome_none, Option.isSome_some,
      schedule_covid_updates]
    rw [schedule_source_update_empty .covid now1 7200 name false (by omega)]
    rfl
  have hsecond : schedule_update tenOClock 60 now2 name "12:00" none (some "covid-data") none
      ⟨[mk_schedule_dictionary name true false false "12:00"],
        ⟨[⟨now1 + 7200, 1, .covid⟩], [⟨⟨now1 + 7200, 1, .covid⟩, name, false⟩]⟩,
        ⟨[], []⟩⟩ =
      some ⟨[mk_schedule_dictionary name true false false "12:00"],
        ⟨[⟨now1 + 7200, 1, .covid⟩, ⟨now2 + 7200, 1, .covid⟩],
         [⟨⟨now1 + 7200, 1, .covid⟩, name, false⟩,
          ⟨⟨now2 + 7200, 1, .covid⟩, name, false⟩]⟩,
        ⟨[], []⟩⟩ := by
    simp only [schedule_update, if_neg hne, time_buffer_default_ten_1200,
      Option.map_some', Option.isSome_none, Option.isSome_some,
      schedule_covid_updates]
    rw [schedule_source_update_second .covid now1 now2 7200 name false h12 (by omega) hnd]
    simp
  rw [hfirst, Option.some_bind, hsecond]

/-- C1: corrected.  Two schedule requests with the same tag leave
exactly one registry record only because the whole record is equal;
the underlying schedule_covid_updates is still invoked by the second
request, so sched.enter adds a second live event to the covid queue
and a second record to covid_queue_info: the queues hold two entries
for the tag, not one. -/
theorem C1_duplicate_schedule :
    ∀ (name : String) (now1 now2 : Int), now1 < now2 → now2 < now1 + 7200 →
      (schedule_update tenOClock 60 now1 name "12:00" none (some "covid-data") none
          ⟨[], ⟨[], []⟩, ⟨[], []⟩⟩).bind
        (schedule_update tenOClock 60 now2 name "12:00" none (some "covid-data") none) =
        some ⟨[mk_schedule_dictionary name true false false "12:00"],
          ⟨[⟨now1 + 7200, 1, .covid⟩, ⟨now2 + 7200, 1, .covid⟩],
           [⟨⟨now1 + 7200, 1, .covid⟩, name, false⟩,
            ⟨⟨now2 + 7200, 1, .covid⟩, name, false⟩]⟩,
          ⟨[], []⟩⟩ ∧
      registryCount [mk_schedule_dictionary name true false false "12:00"] name = 1 ∧
      infoCount [⟨⟨now1 + 7200, 1, .covid⟩, name, false⟩,
        ⟨⟨now2 + 7200, 1, .covid⟩, name, false⟩] name = 2 := by
  intro name now1 now2 h12 hnd
  refine ⟨schedule_update_twice name now1 now2 h12 hnd, ?_, ?_⟩
  · simp [registryCount, mk_schedule_dictionary]
  · simp [infoCount]

/-- C1 witness: a concrete pair of identical requests 60 seconds
apart. -/
theorem C1_duplicate_schedule_witness :
    (schedule_update tenOClock 60 0 "update one" "12:00" none (some "covid-data") none
        ⟨[], ⟨[], []⟩, ⟨[], []⟩⟩).bind
      (schedule_update tenOClock 60 60 "update one" "12:00" none (some "covid-data") none) =
      some ⟨[mk_schedule_dictionary "update one" true false false "12:00"],
        ⟨[⟨0 + 7200, 1, .covid⟩, ⟨60 + 7200, 1, .covid⟩],
         [⟨⟨0 + 7200, 1, .covid⟩, "update one", false⟩,
          ⟨⟨60 + 7200, 1, .covid⟩, "update one", false⟩]⟩,
        ⟨[], []⟩⟩ ∧
    registryCount [mk_schedule_dictionary "update one" true false false "12:00"]
      "update one" = 1 ∧
    infoCount [⟨⟨0 + 7200, 1, .covid⟩, "update one", false⟩,
      ⟨⟨60 + 7200, 1, .covid⟩, "update one", false⟩] "update one" = 2 :=
  C1_duplicate_schedule "update one" 0 60 (by decide) (by decide)

/-- C1 counterexample: after two identical covid-only requests for
the same tag, the covid scheduler queue holds two live events, not
the claimed single live entry per refreshed source. -/
theorem C1_counterexample :
    (schedule_update tenOClock 60 0 "update1" "12:00" none (some "covid-data") none
        ⟨[], ⟨[], []⟩, ⟨[], []⟩⟩).bind
      (schedule_update tenOClock 60 60 "update1" "12:00" none (some "covid-data") none) =
      some ⟨[mk_schedule_dictionary "update1" true false false "12:00"],
        ⟨[⟨7200, 1, .covid⟩, ⟨7260, 1, .covid⟩],
         [⟨⟨7200, 1, .covid⟩, "update1", false⟩, ⟨⟨7260, 1, .covid⟩, "update1", false⟩]⟩,
        ⟨[], []⟩⟩ ∧
    ¬ (([⟨7200, 1, .covid⟩, ⟨7260, 1, .covid⟩] : List SchedEvent).length = 1) := by
  constructor
  · have h := schedule_update_twice "update1" 0 60 (by decide) (by decide)
    simpa using h
  · decide

/-! # Lemmas and claims: the 23:59 repeat re-arm (C3) -/

/-- Retiring an expired news update whose sched event is still
enqueued: the expired pass deletes the info record, so the second
pass finds nothing and never cancels; the event itself stays in the
queue. -/
theorem remove_news_update_expired_single (T : String) (ev : SchedEvent) (rep : Bool) :
    remove_news_update T true ⟨[ev], [⟨ev, T, rep⟩]⟩ = ⟨[ev], []⟩ := by
  simp only [remove_news_update, remove_source_update, if_true]
  rw [pyLoopRemove_hit (fun u : QueueInfoEntry => u.event_name == T) (fun _ s => s)
        [⟨ev, T, rep⟩] () 0 ⟨ev, T, rep⟩ (by simp) (by simp)]
  rw [List.erase_cons_head]
  rw [pyLoopRemove_stop (fun u : QueueInfoEntry => u.event_name == T) (fun _ s => s)
        [] _ 1 (by simp)]
  simp [pyLoopRemove_stop (fun u : QueueInfoEntry => u.event_name == T)
        (fun u q => q.erase u.event_id) [] [ev] 0 (by simp)]

/-- The 23:59 poll retires a repeat update targeted at 23:59 before
the repeat loop can see it: its registry record and queue-info record
are gone, its stale sched event is still enqueued, and nothing new is
scheduled. -/
theorem remove_sched_retires_2359 (T : String) (ev : SchedEvent) :
    remove_scheduled_update none (23, 59)
      ⟨[mk_schedule_dictionary T false true true "23:59"], ⟨[], []⟩,
        ⟨[ev], [⟨ev, T, true⟩]⟩⟩ =
      some ⟨[], ⟨[], []⟩, ⟨[ev], []⟩⟩ := by
  simp only [remove_scheduled_update]
  have hcond : expiredCond (23, 59) (mk_schedule_dictionary T false true true "23:59") =
      some true := rfl
  have hloop := pyLoopRemoveFallible_chain (expiredCond (23, 59)) expiredEffect 1
    [mk_schedule_dictionary T false true true "23:59"] []
    ((⟨[], []⟩ : SchedState), (⟨[ev], [⟨ev, T, true⟩]⟩ : SchedState)) (by simp)
    (by simp)
    (by
      intro x hx
      rw [List.mem_singleton] at hx
      subst hx
      rw [hcond]
      rfl)
    (List.chain'_singleton _)
  simp only [List.nil_append, List.length_nil] at hloop
  rw [hloop]
  have heff : expiredEffect (mk_schedule_dictionary T false true true "23:59")
      ((⟨[], []⟩ : SchedState), (⟨[ev], [⟨ev, T, true⟩]⟩ : SchedState)) =
      (⟨[], []⟩, ⟨[ev], []⟩) := by
    simp only [expiredEffect, mk_schedule_dictionary]
    rw [remove_news_update_expired_single T ev true]
    simp
  simp [hcond, heff]

/-- The full 23:59 poll on a registry holding only that update. -/
theorem poll_retires_2359 (T : String) (dflt : Clock) (schedNow : Int) (ev : SchedEvent) :
    poll_maintenance dflt schedNow (23, 59) none
      ⟨[mk_schedule_dictionary T false true true "23:59"], ⟨[], []⟩,
        ⟨[ev], [⟨ev, T, true⟩]⟩⟩ =
      some ⟨[], ⟨[], []⟩, ⟨[ev], []⟩⟩ := by
  simp only [poll_maintenance]
  rw [remove_sched_retires_2359 T ev, Option.some_bind]
  simp [List.foldlM]

/-- A 10:30 update is untouched by the 23:59 expiry scan. -/
theorem remove_sched_keeps_1030 (T : String) :
    remove_scheduled_update none (23, 59)
      ⟨[mk_schedule_dictionary T false true true "10:30"], ⟨[], []⟩, ⟨[], []⟩⟩ =
      some ⟨[mk_schedule_dictionary T false true true "10:30"], ⟨[], []⟩, ⟨[], []⟩⟩ := by
  simp only [remove_scheduled_update]
  rw [pyLoopRemoveFallible_all_false _ _ _ _ _ (by
    intro x hx
    rw [List.mem_singleton] at hx
    subst hx
    rfl)]
  rfl

/-- Re-arming a news-only repeat record: the delay comes from the
one-argument time_buffer call, i.e. from the frozen default clock. -/
theorem repeat_rearm_1030 (T : String) (dflt : Clock) (schedNow dl : Int)
    (htb : time_buffer_default dflt "10:30" = some dl) (hdl : 0 < dl) :
    repeat_updates_scheduler dflt schedNow (mk_schedule_dictionary T false true true "10:30")
      ⟨[mk_schedule_dictionary T false true true "10:30"], ⟨[], []⟩, ⟨[], []⟩⟩ =
      some ⟨[mk_schedule_dictionary T false true true "10:30"], ⟨[], []⟩,
        ⟨[⟨schedNow + dl, 1, .news⟩], [⟨⟨schedNow + dl, 1, .news⟩, T, true⟩]⟩⟩ := by
  rw [repeat_updates_scheduler]
  have htime : (mk_schedule_dictionary T false true true "10:30").time = "10:30" := rfl
  rw [htime, htb]
  simp only [mk_schedule_dictionary]
  rw [update_news, schedule_source_update_empty .news schedNow dl T true hdl]
  simp

/-- The full 23:59 poll re-arms the surviving 10:30 repeat without
duplicating its registry record. -/
theorem poll_rearms_1030 (T : String) (dflt : Clock) (schedNow dl : Int)
    (htb : time_buffer_default dflt "10:30" = some dl) (hdl : 0 < dl) :
    poll_maintenance dflt schedNow (23, 59) none
      ⟨[mk_schedule_dictionary T false true true "10:30"], ⟨[], []⟩, ⟨[], []⟩⟩ =
      some ⟨[mk_schedule_dictionary T false true true "10:30"], ⟨[], []⟩,
        ⟨[⟨schedNow + dl, 1, .news⟩], [⟨⟨schedNow + dl, 1, .news⟩, T, true⟩]⟩⟩ := by
  simp only [poll_maintenance]
  rw [remove_sched_keeps_1030 T, Option.some_bind]
  have hrep : (mk_schedule_dictionary T false true true "10:30").repeatFlag = true := rfl
  simp only [List.foldlM, hrep, if_pos rfl]
  rw [repeat_rearm_1030 T dflt schedNow dl htb hdl]
  simp

/-- C3: corrected.  A repeat update targeted at 23:59 is never
re-armed: remove_scheduled_update runs before the repeat loop, and at
the 23:59 poll the expiry test (hour equal, minute reached) retires
exactly that entry, so the repeat loop no longer sees it; its stale
sched event survives in the queue and nothing fresh is scheduled.  A
repeat update whose hour is not 23 does get re-armed by the same
poll, with a delay computed by the one-argument time_buffer call
against the frozen process-start clock, not the current 23:59 wall
clock, and without duplicating its registry record. -/
theorem C3_rearm_at_2359 :
    (∀ (T : String) (dflt : Clock) (schedNow : Int) (ev : SchedEvent),
       poll_maintenance dflt schedNow (23, 59) none
         ⟨[mk_schedule_dictionary T false true true "23:59"], ⟨[], []⟩,
           ⟨[ev], [⟨ev, T, true⟩]⟩⟩ =
         some ⟨[], ⟨[], []⟩, ⟨[ev], []⟩⟩)
    ∧ (∀ (T : String) (dflt : Clock) (schedNow dl : Int),
       time_buffer_default dflt "10:30" = some dl → 0 < dl →
       poll_maintenance dflt schedNow (23, 59) none
         ⟨[mk_schedule_dictionary T false true true "10:30"], ⟨[], []⟩, ⟨[], []⟩⟩ =
         some ⟨[mk_schedule_dictionary T false true true "10:30"], ⟨[], []⟩,
           ⟨[⟨schedNow + dl, 1, .news⟩], [⟨⟨schedNow + dl, 1, .news⟩, T, true⟩]⟩⟩) :=
  ⟨poll_retires_2359, poll_rearms_1030⟩

/-- C3 witness: with the frozen clock at 10:00, the surviving 10:30
repeat is re-armed with the frozen-clock delay 1800 seconds. -/
theorem C3_rearm_at_2359_witness :
    poll_maintenance tenOClock 0 (23, 59) none
      ⟨[mk_schedule_dictionary "u" false true true "10:30"], ⟨[], []⟩, ⟨[], []⟩⟩ =
      some ⟨[mk_schedule_dictionary "u" false true true "10:30"], ⟨[], []⟩,
        ⟨[⟨0 + 1800, 1, .news⟩], [⟨⟨0 + 1800, 1, .news⟩, "u", true⟩]⟩⟩ := by
  have htb : time_buffer_default tenOClock "10:30" = some 1800 := by
    rw [time_buffer_default,
        time_buffer_not_past tenOClock "10:30" _ 10 30 (by decide) (by decide) (by decide)]
    decide
  exact C3_rearm_at_2359.2 "u" tenOClock 0 1800 htb (by decide)

/-- C3 counterexample: the claimed scenario (tag "updateA", target
"23:59", repeat on, poll at 23:59) ends with the tag gone from the
registry and from the queue-info list and with only the stale event
(entered at time 100) in the news queue: no entry with a freshly
computed next-day delay exists. -/
theorem C3_counterexample :
    poll_maintenance tenOClock 50 (23, 59) none
      ⟨[mk_schedule_dictionary "updateA" false true true "23:59"], ⟨[], []⟩,
        ⟨[⟨100, 1, .news⟩], [⟨⟨100, 1, .news⟩, "updateA", true⟩]⟩⟩ =
      some ⟨[], ⟨[], []⟩, ⟨[⟨100, 1, .news⟩], []⟩⟩ ∧
    registryCount ([] : List SchedDict) "updateA" = 0 ∧
    infoCount ([] : List QueueInfoEntry) "updateA" = 0 ∧
    ([⟨100, 1, .news⟩] : List SchedEvent).all (fun e => decide (e.time < 86000)) = true := by
  refine ⟨poll_retires_2359 "updateA" tenOClock 50 ⟨100, 1, .news⟩, by decide, by decide, by decide⟩

end CovidDashboard
